import Mathlib

/-! # Bootstrap peer verification (`cmd/bootstrap-peer-server.go`)

A shallow embedding of the bootstrap agreement check:

* `ServerSystemConfig.Diff`, the positional comparison of two configurations;
* `newBootstrapRESTClients`, the construction of one client per remote host;
* `bootstrapRESTClient.Verify`, the single call to a peer, with the transport,
  the decoder and the object-layer predicate as inputs;
* `verifyServerSystemConfig`, the retry loop that drives the clients, with the
  outcomes of the Verify calls and the cancellation signal as inputs, a bound
  on the number of passes, and a record of the events of the run.

Go slices are lists, Go `int` values that are only compared are `Int`, an
indexing expression `xs[i]` is a lookup that can fail with the run-time panic
`index out of range`, and the `error` returned by `fmt.Errorf` is a value that
records the format and its arguments (`Discrepancy.Error` renders the text).
-/

namespace Bootstrap

/-! ## Data model -/

/-- Modelled from the spec: the `Endpoint` type is declared outside
`bootstrap-peer-server.go`.  The code reads `Scheme`, `Host` and `IsLocal`
from it, and the spec describes an address as scheme + host + path. -/
structure Endpoint where
  Scheme : String
  Host : String
  Path : String
  IsLocal : Bool
  deriving DecidableEq, Repr

/-- Modelled from the spec: `Endpoint.String()` is declared outside
`bootstrap-peer-server.go`; the spec describes the address as
"scheme+host+path".  No result below depends on how the three parts are
joined. -/
def Endpoint.String (e : Endpoint) : String :=
  e.Scheme ++ "://" ++ e.Host ++ e.Path

/-- Modelled from the spec: the element type of `EndpointServerSets` is
declared outside `bootstrap-peer-server.go`.  The code reads `SetCount`,
`DrivesPerSet` and `Endpoints` from it ("setCount (integer), drivesPerSet
(integer), endpoints (ordered sequence of endpoint addresses)"). -/
structure EndpointSet where
  SetCount : Int
  DrivesPerSet : Int
  Endpoints : List Endpoint
  deriving DecidableEq, Repr

/-- The type `EndpointServerSets`: an ordered sequence of endpoint sets. -/
abbrev EndpointServerSets := List EndpointSet

/-- Modelled from the spec: `EndpointServerSets.NEndpoints()` is declared
outside `bootstrap-peer-server.go`.  The spec names the quantity compared
after the platform the "total endpoint-set count", so it is the number of
endpoint sets of the topology. -/
def NEndpoints (l : EndpointServerSets) : Int :=
  (l.length : Int)

/-- The struct `ServerSystemConfig` (lines 51-56). -/
structure ServerSystemConfig where
  MinioPlatform : String
  MinioRuntime : String
  MinioEndpoints : EndpointServerSets
  deriving DecidableEq, Repr

/-- The `error` values built by `Diff`, one constructor per `fmt.Errorf` call,
holding the arguments of the format in their order. -/
inductive Discrepancy where
  | platform (expected found : String)
  | endpointCount (expected seen : Int)
  | setCount (expected seen : Int)
  | drivesPerSet (expected seen : Int)
  | endpoint (expected seen : String)
  deriving DecidableEq, Repr

/-- Decimal rendering of a Go `int` under the verb `%d`. -/
def fmtInt (n : Int) : String :=
  match n with
  | Int.ofNat m => Nat.repr m
  | Int.negSucc m => "-" ++ Nat.repr (m + 1)

/-- The text of the error, as the format strings of `Diff` produce it. -/
def Discrepancy.Error : Discrepancy → String
  | .platform e f =>
      "Expected platform \x27" ++ e ++ "\x27, found to be running \x27" ++ f ++ "\x27"
  | .endpointCount e s =>
      "Expected number of endpoints " ++ fmtInt e ++ ", seen " ++ fmtInt s
  | .setCount e s =>
      "Expected set count " ++ fmtInt e ++ ", seen " ++ fmtInt s
  | .drivesPerSet e s =>
      "Expected drives pet set " ++ fmtInt e ++ ", seen " ++ fmtInt s
  | .endpoint e s =>
      "Expected endpoint " ++ e ++ ", seen " ++ s

/-- The run-time panic of an indexing expression `xs[i]` with `i ≥ len(xs)`. -/
inductive Panic where
  | indexOutOfRange (index length : Nat)
  deriving DecidableEq, Repr

/-- What a call of `Diff` can do: return `nil` (`.ok none`), return an error
(`.ok (some d)`), or panic. -/
abbrev DiffResult := Except Panic (Option Discrepancy)

deriving instance DecidableEq for Except

/-! ## `ServerSystemConfig.Diff` (lines 58-87) -/

/-- The inner loop `for j, endpoint := range ep.Endpoints` (lines 78-83),
started at position `j`; `eps2` is `s2.MinioEndpoints[i].Endpoints`. -/
def diffEndpoints (eps2 : List Endpoint) : List Endpoint → Nat → DiffResult
  | [], _ => .ok none
  | endpoint :: rest, j =>
    match eps2[j]? with
    | none => .error (.indexOutOfRange j eps2.length)
    | some e2 =>
      if endpoint.String ≠ e2.String then
        .ok (some (.endpoint endpoint.String e2.String))
      else diffEndpoints eps2 rest (j + 1)

/-- The outer loop `for i, ep := range s1.MinioEndpoints` (lines 69-85),
started at position `i`; `sets2` is `s2.MinioEndpoints`. -/
def diffSets (sets2 : EndpointServerSets) : List EndpointSet → Nat → DiffResult
  | [], _ => .ok none
  | ep :: rest, i =>
    match sets2[i]? with
    | none => .error (.indexOutOfRange i sets2.length)
    | some ep2 =>
      if ep.SetCount ≠ ep2.SetCount then
        .ok (some (.setCount ep.SetCount ep2.SetCount))
      else if ep.DrivesPerSet ≠ ep2.DrivesPerSet then
        .ok (some (.drivesPerSet ep.DrivesPerSet ep2.DrivesPerSet))
      else
        match diffEndpoints ep2.Endpoints ep.Endpoints 0 with
        | .ok none => diffSets sets2 rest (i + 1)
        | r => r

/-- `func (s1 ServerSystemConfig) Diff(s2 ServerSystemConfig) error`. -/
def ServerSystemConfig.Diff (s1 s2 : ServerSystemConfig) : DiffResult :=
  if s1.MinioPlatform ≠ s2.MinioPlatform then
    .ok (some (.platform s1.MinioPlatform s2.MinioPlatform))
  else if NEndpoints s1.MinioEndpoints ≠ NEndpoints s2.MinioEndpoints then
    .ok (some (.endpointCount (NEndpoints s1.MinioEndpoints) (NEndpoints s2.MinioEndpoints)))
  else diffSets s2.MinioEndpoints s1.MinioEndpoints 0

/-- `func (s1 ServerSystemConfig) Diff(s2 ServerSystemConfig) error` with the
method `NEndpoints()`, which is declared outside `bootstrap-peer-server.go`,
as the parameter `count`: the same statements as `Diff`, lines 59-87. -/
def ServerSystemConfig.DiffWith (count : EndpointServerSets → Int)
    (s1 s2 : ServerSystemConfig) : DiffResult :=
  if s1.MinioPlatform ≠ s2.MinioPlatform then
    .ok (some (.platform s1.MinioPlatform s2.MinioPlatform))
  else if count s1.MinioEndpoints ≠ count s2.MinioEndpoints then
    .ok (some (.endpointCount (count s1.MinioEndpoints) (count s2.MinioEndpoints)))
  else diffSets s2.MinioEndpoints s1.MinioEndpoints 0

/-- The reading of `NEndpoints()` that the error text of lines 65-66 names,
"Expected number of endpoints %d, seen %d": the number of endpoints of all
endpoint sets taken together. -/
def totalEndpoints (l : EndpointServerSets) : Int :=
  ((l.map (fun ep => ep.Endpoints.length)).sum : Nat)

/-! ## The walk of the specification -/

/-- One comparison of the walk: whether the two values differ, and the
discrepancy reported when they do (expected value first, observed second). -/
structure Check where
  mismatch : Bool
  report : Discrepancy
  deriving DecidableEq, Repr

/-- Comparison of one endpoint address. -/
def checkEndpoint (x y : Endpoint) : Check :=
  ⟨decide (x.String ≠ y.String), .endpoint x.String y.String⟩

/-- The comparisons of one endpoint set, in the order of the specification:
`setCount`, `drivesPerSet`, then the endpoint addresses positionally. -/
def walkSet (a b : EndpointSet) : List Check :=
  ⟨decide (a.SetCount ≠ b.SetCount), .setCount a.SetCount b.SetCount⟩ ::
  ⟨decide (a.DrivesPerSet ≠ b.DrivesPerSet), .drivesPerSet a.DrivesPerSet b.DrivesPerSet⟩ ::
  List.zipWith checkEndpoint a.Endpoints b.Endpoints

/-- The comparisons of all endpoint sets, positionally. -/
def walkSets : List EndpointSet → List EndpointSet → List Check
  | a :: l, b :: r => walkSet a b ++ walkSets l r
  | _, _ => []

/-- The fixed walk order of the specification: platform, total endpoint-set
count, then per set (setCount, drivesPerSet) and per endpoint address. -/
def walk (s1 s2 : ServerSystemConfig) : List Check :=
  ⟨decide (s1.MinioPlatform ≠ s2.MinioPlatform), .platform s1.MinioPlatform s2.MinioPlatform⟩ ::
  ⟨decide (NEndpoints s1.MinioEndpoints ≠ NEndpoints s2.MinioEndpoints),
    .endpointCount (NEndpoints s1.MinioEndpoints) (NEndpoints s2.MinioEndpoints)⟩ ::
  walkSets s1.MinioEndpoints s2.MinioEndpoints

/-- The first discrepancy of a walk, if any. -/
def firstMismatch (w : List Check) : Option Discrepancy :=
  (w.find? (fun c => c.mismatch)).map (fun c => c.report)

/-! ## Shapes -/

/-- Every endpoint set of the left list has a partner with at least as many
endpoints. -/
def Covered (l r : EndpointServerSets) : Prop :=
  List.Forall₂ (fun a b => a.Endpoints.length ≤ b.Endpoints.length) l r

/-- Same number of endpoint sets and the same number of endpoints in each. -/
def SameShape (s1 s2 : ServerSystemConfig) : Prop :=
  List.Forall₂ (fun a b => a.Endpoints.length = b.Endpoints.length)
    s1.MinioEndpoints s2.MinioEndpoints


/-! ## `newBootstrapRESTClients` (lines 199-216) -/

/-- The struct `bootstrapRESTClient` (lines 119-122).  The transport client
`restClient` is an external collaborator that `newBootstrapRESTClient` builds
from the `Scheme` and `Host` of the endpoint; the client is identified by its
`endpoint`. -/
structure bootstrapRESTClient where
  endpoint : Endpoint
  deriving DecidableEq, Repr

/-- `func newBootstrapRESTClient(endpoint Endpoint) *bootstrapRESTClient`. -/
def newBootstrapRESTClient (endpoint : Endpoint) : bootstrapRESTClient :=
  ⟨endpoint⟩

/-- The two variables of the scan: `seenHosts` and `clnts`. -/
structure ScanState where
  seenHosts : List String
  clnts : List bootstrapRESTClient
  deriving DecidableEq, Repr

/-- The inner loop `for _, endpoint := range ep.Endpoints` (lines 203-213). -/
def scanEndpoints : List Endpoint → ScanState → ScanState
  | [], st => st
  | endpoint :: rest, st =>
    if endpoint.Host ∈ st.seenHosts then scanEndpoints rest st
    else
      let seen := endpoint.Host :: st.seenHosts
      if !endpoint.IsLocal then
        scanEndpoints rest ⟨seen, st.clnts ++ [newBootstrapRESTClient endpoint]⟩
      else scanEndpoints rest ⟨seen, st.clnts⟩

/-- The outer loop `for _, ep := range endpointServerSets` (lines 202-214). -/
def scanSets : List EndpointSet → ScanState → ScanState
  | [], st => st
  | ep :: rest, st => scanSets rest (scanEndpoints ep.Endpoints st)

/-- `func newBootstrapRESTClients(endpointServerSets EndpointServerSets)`. -/
def newBootstrapRESTClients (endpointServerSets : EndpointServerSets) :
    List bootstrapRESTClient :=
  (scanSets endpointServerSets ⟨[], []⟩).clnts

/-- All endpoints of a topology in scan order: endpoint sets positionally,
endpoints positionally within each set. -/
def allEndpoints : EndpointServerSets → List Endpoint
  | [] => []
  | ep :: rest => ep.Endpoints ++ allEndpoints rest

/-- The first endpoint with host `h` met by the scan. -/
def firstWithHost (h : String) (l : List Endpoint) : Option Endpoint :=
  l.find? (fun e => decide (e.Host = h))

/-! ## `bootstrapRESTClient.Verify` (lines 145-160) -/

/-- The non-nil errors `Verify` can return: the error of the transport call,
passed on unchanged (with the transport's own classification of it as a
network-layer failure or not), the error of the JSON decoder, or the error
of `Diff`. -/
inductive VerifyError where
  | call (network : Bool) (msg : String)
  | decode (msg : String)
  | diff (d : Discrepancy)
  deriving DecidableEq, Repr

/-- Modelled from the spec: `isNetworkError` is declared outside
`bootstrap-peer-server.go`.  The spec takes the classification from the
transport ("must expose a way to distinguish network-layer failures"), and
counts a malformed response and a configuration mismatch as fatal. -/
def isNetworkError : VerifyError → Bool
  | .call network _ => network
  | .decode _ => false
  | .diff _ => false

/-- What one call of `Verify` did: the value it returned (or the panic of
`Diff`), and how many transport calls it issued. -/
structure VerifyRun where
  result : Except Panic (Option VerifyError)
  calls : Nat
  deriving Repr

/-- `func (client *bootstrapRESTClient) Verify(ctx, srcCfg) (err error)`.
`objectLayerReady` is `newObjectLayerFn() != nil`, `call client` is what
`client.restClient.Call` answers when it is called (a response body, or an
error and whether it is a network error), `decode` is the JSON decoder. -/
def bootstrapRESTClient.Verify (client : bootstrapRESTClient) (objectLayerReady : Bool)
    (call : bootstrapRESTClient → Except (Bool × String) String)
    (decode : String → Except String ServerSystemConfig)
    (srcCfg : ServerSystemConfig) : VerifyRun :=
  if objectLayerReady then ⟨.ok none, 0⟩
  else
    match call client with
    | .error (network, msg) => ⟨.ok (some (.call network msg)), 1⟩
    | .ok respBody =>
      match decode respBody with
      | .error msg => ⟨.ok (some (.decode msg)), 1⟩
      | .ok recvCfg =>
        match srcCfg.Diff recvCfg with
        | .error p => ⟨.error p, 1⟩
        | .ok none => ⟨.ok none, 1⟩
        | .ok (some d) => ⟨.ok (some (.diff d)), 1⟩

/-! ## `verifyServerSystemConfig` (lines 162-197) -/

/-- `func (client *bootstrapRESTClient) String() string` (lines 141-143). -/
def bootstrapRESTClient.String (client : bootstrapRESTClient) : String :=
  client.endpoint.String

/-- What the loop does to the outside, in the order it does it. -/
inductive Event where
  /-- `clnt.Verify(ctx, srcCfg)` on the client at position `idx`, in pass `round`. -/
  | verify (round idx : Nat)
  /-- The `select` on `ctx.Done()` after pass `round`. -/
  | ctxDone (round : Nat)
  /-- `time.Sleep(100 * time.Millisecond)`. -/
  | sleep
  /-- `logger.Info` of the number of servers waited for. -/
  | logWaiting (atLeast : Nat)
  /-- `logger.Info` of the offline endpoints. -/
  | logOffline (offlineEndpoints : List String)
  deriving DecidableEq, Repr

/-- What `verifyServerSystemConfig` returns. -/
inductive LoopResult where
  /-- `return nil`. -/
  | nil
  /-- `return ctx.Err()`. -/
  | ctxErr
  /-- `fmt.Errorf("%s as has incorrect configuration: %w", clnt.String(), err)`. -/
  | incorrectConfiguration (clnt : String) (err : VerifyError)
  deriving DecidableEq, Repr

/-- The local variables of the loop, with the number of the current pass and
the events so far. -/
structure LoopState where
  onlineServers : Nat
  offlineEndpoints : List String
  retries : Nat
  round : Nat
  trace : List Event
  deriving DecidableEq, Repr

/-- The inner loop `for _, clnt := range clnts` (lines 169-178), from the
client at position `idx` on.  `verify round idx` is what `Verify` returns for
that client in that pass.  The first component is the value returned from
inside the loop, if any. -/
def verifyPass (verify : Nat → Nat → Option VerifyError) (round : Nat) :
    List bootstrapRESTClient → Nat → LoopState → Option LoopResult × LoopState
  | [], _, st => (none, st)
  | clnt :: rest, idx, st =>
    let st := { st with trace := st.trace ++ [Event.verify round idx] }
    match verify round idx with
    | some err =>
      if isNetworkError err then
        verifyPass verify round rest (idx + 1)
          { st with offlineEndpoints := st.offlineEndpoints ++ [clnt.String] }
      else (some (.incorrectConfiguration clnt.String err), st)
    | none =>
      verifyPass verify round rest (idx + 1)
        { st with onlineServers := st.onlineServers + 1 }

/-- The statements of the `default` branch of the `select` (lines 183-193). -/
def afterPass (clnts : List bootstrapRESTClient) (st : LoopState) : LoopState :=
  let st := { st with trace := st.trace ++ [Event.sleep], retries := st.retries + 1 }
  let st :=
    if st.retries ≥ 5 then
      { st with
        trace := st.trace ++
          [Event.logWaiting (clnts.length / 2), Event.logOffline st.offlineEndpoints],
        retries := 0 }
    else st
  { st with offlineEndpoints := [], round := st.round + 1 }

/-- The loop `for onlineServers < len(clnts)/2` (lines 168-195), allowed at
most `fuel` passes; the result is `none` when a further pass is due and no
fuel is left.  `ctxDone round` tells whether `ctx.Done()` is closed at the
`select` that follows pass `round`. -/
def verifyLoop (verify : Nat → Nat → Option VerifyError) (ctxDone : Nat → Bool)
    (clnts : List bootstrapRESTClient) : Nat → LoopState → Option LoopResult × LoopState
  | 0, st =>
    if st.onlineServers < clnts.length / 2 then (none, st) else (some .nil, st)
  | fuel + 1, st =>
    if st.onlineServers < clnts.length / 2 then
      match verifyPass verify st.round clnts 0 st with
      | (some err, st) => (some err, st)
      | (none, st) =>
        let st := { st with trace := st.trace ++ [Event.ctxDone st.round] }
        if ctxDone st.round then (some .ctxErr, st)
        else verifyLoop verify ctxDone clnts fuel (afterPass clnts st)
    else (some .nil, st)

/-- The state in which the loop is entered (lines 165-167). -/
def LoopState.init : LoopState :=
  ⟨0, [], 0, 0, []⟩

/-- `func verifyServerSystemConfig(ctx, endpointServerSets) error`. -/
def verifyServerSystemConfig (verify : Nat → Nat → Option VerifyError)
    (ctxDone : Nat → Bool) (endpointServerSets : EndpointServerSets) (fuel : Nat) :
    Option LoopResult × LoopState :=
  verifyLoop verify ctxDone (newBootstrapRESTClients endpointServerSets) fuel LoopState.init


/-! ## Relations between two configurations -/

/-- Same platform, same ordered endpoint sets (equal `SetCount` and
`DrivesPerSet`), same ordered endpoints (equal `String()`). -/
def StructurallyIdentical (s1 s2 : ServerSystemConfig) : Prop :=
  s1.MinioPlatform = s2.MinioPlatform ∧
  List.Forall₂
    (fun a b => a.SetCount = b.SetCount ∧ a.DrivesPerSet = b.DrivesPerSet ∧
      List.Forall₂ (fun x y => x.String = y.String) a.Endpoints b.Endpoints)
    s1.MinioEndpoints s2.MinioEndpoints

/-- The endpoint at set position `i` and endpoint position `j`. -/
def endpointAt (s : ServerSystemConfig) (i j : Nat) : Option Endpoint :=
  match s.MinioEndpoints[i]? with
  | none => none
  | some a => a.Endpoints[j]?

/-- The two configurations agree on the platform, on the number of sets and
at every set position on `SetCount`, `DrivesPerSet`, the number of endpoints
and every endpoint address, except for the address at position `(i, j)`,
which exists in both and differs. -/
def DiffersOnlyAt (s1 s2 : ServerSystemConfig) (i j : Nat) : Prop :=
  s1.MinioPlatform = s2.MinioPlatform ∧
  s1.MinioEndpoints.length = s2.MinioEndpoints.length ∧
  (∀ k a b, s1.MinioEndpoints[k]? = some a → s2.MinioEndpoints[k]? = some b →
    a.SetCount = b.SetCount ∧ a.DrivesPerSet = b.DrivesPerSet ∧
    a.Endpoints.length = b.Endpoints.length ∧
    ∀ m x y, a.Endpoints[m]? = some x → b.Endpoints[m]? = some y →
      (k, m) ≠ (i, j) → x.String = y.String) ∧
  ∃ x y, endpointAt s1 i j = some x ∧ endpointAt s2 i j = some y ∧ x.String ≠ y.String

/-! ## Sample configurations -/

/-- A sample platform string, as `getServerSystemCfg` builds it. -/
def linuxAmd64 : String := "OS: linux | Arch: amd64"

/-- Sample endpoint: first drive of node 1. -/
def node1d1 : Endpoint := ⟨"http", "node1:9000", "/d1", false⟩
/-- Sample endpoint: second drive of node 1. -/
def node1d2 : Endpoint := ⟨"http", "node1:9000", "/d2", false⟩
/-- Sample endpoint: first drive of node 2. -/
def node2d1 : Endpoint := ⟨"http", "node2:9000", "/d1", false⟩
/-- Sample endpoint: second drive of node 2. -/
def node2d2 : Endpoint := ⟨"http", "node2:9000", "/d2", false⟩
/-- Sample endpoint: first drive of node 3. -/
def node3d1 : Endpoint := ⟨"http", "node3:9000", "/d1", false⟩

/-- A sample configuration: one set of two endpoints. -/
def cfgOneSet : ServerSystemConfig :=
  ⟨linuxAmd64, "", [⟨1, 2, [node1d1, node2d1]⟩]⟩

/-- A sample configuration: two sets of two endpoints. -/
def cfgTwoSets : ServerSystemConfig :=
  ⟨linuxAmd64, "", [⟨1, 2, [node1d1, node2d1]⟩, ⟨1, 2, [node1d2, node2d2]⟩]⟩

/-- The configuration `cfgTwoSets` as a peer reports it: another runtime
string, and the endpoints of node 2 flagged local. -/
def cfgTwoSetsPeer : ServerSystemConfig :=
  ⟨linuxAmd64, "go1.15",
    [⟨1, 2, [node1d1, { node2d1 with IsLocal := true }]⟩,
     ⟨1, 2, [node1d2, { node2d2 with IsLocal := true }]⟩]⟩

/-- The configuration `cfgTwoSets` with another address at position `(0, 1)`
and another `SetCount` in set 1. -/
def cfgTwoSetsOther : ServerSystemConfig :=
  ⟨linuxAmd64, "", [⟨1, 2, [node1d1, node3d1]⟩, ⟨4, 2, [node1d2, node2d2]⟩]⟩

/-- The configuration `cfgOneSet` on another platform and with another
topology shape. -/
def cfgDarwin : ServerSystemConfig :=
  ⟨"OS: darwin | Arch: arm64", "", [⟨1, 1, []⟩, ⟨7, 7, [node3d1]⟩]⟩

/-- The configuration `cfgOneSet` whose only set has one endpoint more. -/
def cfgOneSetLonger : ServerSystemConfig :=
  ⟨linuxAmd64, "", [⟨1, 2, [node1d1, node2d1, node3d1]⟩]⟩

/-- The configuration `cfgOneSet` followed by a second endpoint set, which
has no endpoints. -/
def cfgOneSetExtraEmpty : ServerSystemConfig :=
  ⟨linuxAmd64, "", [⟨1, 2, [node1d1, node2d1]⟩, ⟨4, 4, []⟩]⟩

/-- Expects `node2d1` at position `(0, 0)`. -/
def cfgFirstA : ServerSystemConfig := ⟨linuxAmd64, "", [⟨1, 2, [node2d1, node1d1]⟩]⟩
/-- Has `node3d1` at position `(0, 0)`, otherwise as `cfgFirstA`. -/
def cfgFirstB : ServerSystemConfig := ⟨linuxAmd64, "", [⟨1, 2, [node3d1, node1d1]⟩]⟩
/-- Expects `node2d1` at position `(0, 1)`. -/
def cfgSecondA : ServerSystemConfig := ⟨linuxAmd64, "", [⟨1, 2, [node1d1, node2d1]⟩]⟩
/-- Has `node3d1` at position `(0, 1)`, otherwise as `cfgSecondA`. -/
def cfgSecondB : ServerSystemConfig := ⟨linuxAmd64, "", [⟨1, 2, [node1d1, node3d1]⟩]⟩

/-! ## Closed form of the scan -/

/-- The clients a scan of `l` adds when the hosts `seen` have been met. -/
def newClients (seen : List String) : List Endpoint → List bootstrapRESTClient
  | [] => []
  | e :: rest =>
    if e.Host ∈ seen then newClients seen rest
    else (if e.IsLocal then [] else [newBootstrapRESTClient e]) ++
      newClients (e.Host :: seen) rest

/-- The hosts of a list of clients, in order. -/
def clientHosts (clnts : List bootstrapRESTClient) : List String :=
  clnts.map (fun c => c.endpoint.Host)

/-- Sample endpoint on `hostA`, local to this process. -/
def hostA : Endpoint := ⟨"http", "hostA", "/data", true⟩
/-- Sample endpoint on `hostB`. -/
def hostB : Endpoint := ⟨"http", "hostB", "/data", false⟩
/-- Sample endpoint on `hostC`. -/
def hostC : Endpoint := ⟨"http", "hostC", "/data", false⟩

/-- The topology `[{hostA, hostB}, {hostB, hostC}]` with `hostA` local. -/
def topologyABC : EndpointServerSets :=
  [⟨1, 2, [hostA, hostB]⟩, ⟨1, 2, [hostB, hostC]⟩]

/-- A topology in which the first endpoint of `node1:9000` is flagged local
and its second endpoint is not. -/
def topologyMixed : EndpointServerSets :=
  [⟨1, 2, [⟨"http", "node1:9000", "/d1", true⟩, ⟨"http", "node1:9000", "/d2", false⟩]⟩]

/-! ## Vocabulary for runs of the loop -/

/-- The Verify call on the client at position `idx` in pass `round` returns
`nil` or a network error. -/
def benign (verify : Nat → Nat → Option VerifyError) (round idx : Nat) : Bool :=
  match verify round idx with
  | none => true
  | some err => isNetworkError err

/-- The `String()` of the clients of `clnts` (at the positions from `idx` on)
whose Verify call in pass `round` returns a network error, in client order. -/
def offlineIn (verify : Nat → Nat → Option VerifyError) (round : Nat) :
    List bootstrapRESTClient → Nat → List String
  | [], _ => []
  | clnt :: rest, idx =>
    (if (verify round idx).any isNetworkError then [clnt.String] else []) ++
      offlineIn verify round rest (idx + 1)

/-- The number of positions among `idx, …, idx + n - 1` whose Verify call in
pass `round` returns `nil`. -/
def onlineIn (verify : Nat → Nat → Option VerifyError) (round idx n : Nat) : Nat :=
  ((List.range' idx n).filter (fun i => (verify round i).isNone)).length

/-- The events of the Verify calls on positions `idx, …, idx + n - 1` in pass
`round`. -/
def verifyEvents (round idx n : Nat) : List Event :=
  (List.range' idx n).map (Event.verify round)

/-- Every Verify call recorded in the trace returned `nil` or a network
error. -/
def AllBenign (verify : Nat → Nat → Option VerifyError) (trace : List Event) : Prop :=
  ∀ r k, Event.verify r k ∈ trace → benign verify r k = true

/-- The state after `n` Verify calls of pass `round` from position `idx` on
that recorded the names `offline` and counted `online` successes. -/
def LoopState.afterCalls (st : LoopState) (round idx n : Nat) (offline : List String)
    (online : Nat) : LoopState :=
  { st with
    trace := st.trace ++ verifyEvents round idx n,
    offlineEndpoints := st.offlineEndpoints ++ offline,
    onlineServers := st.onlineServers + online }

/-- A topology with one remote peer: `hostA` is local, `hostB` is not. -/
def topologyOnePeer : EndpointServerSets :=
  [⟨1, 2, [hostA, hostB]⟩]

/-- A topology with two remote peers, `hostB` and `hostC`. -/
def topologyTwoPeers : EndpointServerSets :=
  [⟨1, 3, [hostA, hostB, hostC]⟩]

/-- A sample discrepancy: the peer runs on another platform. -/
def platformMismatch : Discrepancy :=
  .platform "OS: linux | Arch: amd64" "OS: darwin | Arch: arm64"

/-- The schedule in which every Verify call returns the platform mismatch. -/
def alwaysMismatch : Nat → Nat → Option VerifyError :=
  fun _ _ => some (.diff platformMismatch)

/-- The schedule in which the peer at position 0 is unreachable and the peer
at position 1 returns the platform mismatch, in every pass. -/
def offlineThenMismatch : Nat → Nat → Option VerifyError :=
  fun _ idx => if idx = 0 then some (.call true "connection refused")
    else some (.diff platformMismatch)

/-- The schedule in which the peer at position 0 answers with a body that
does not decode and the peer at position 1 returns the platform mismatch. -/
def undecodableThenMismatch : Nat → Nat → Option VerifyError :=
  fun _ idx => if idx = 0 then some (.decode "unexpected EOF")
    else some (.diff platformMismatch)

/-- The context is never cancelled. -/
def neverDone : Nat → Bool :=
  fun _ => false
/-! ## Rounds of the loop in closed form -/

/-- The events of a pass `r` over `clnts` that runs to its end and is followed
by an uncancelled round boundary: the Verify calls, the `select`, the sleep,
and, at every fifth boundary, the two log lines. -/
def roundEvents (verify : Nat → Nat → Option VerifyError)
    (clnts : List bootstrapRESTClient) (r : Nat) : List Event :=
  verifyEvents r 0 clnts.length ++ [Event.ctxDone r, Event.sleep] ++
    (if (r + 1) % 5 = 0 then
      [Event.logWaiting (clnts.length / 2), Event.logOffline (offlineIn verify r clnts 0)]
    else [])

/-- The events of the rounds `0, …, n - 1`. -/
def tracePrefix (verify : Nat → Nat → Option VerifyError)
    (clnts : List bootstrapRESTClient) : Nat → List Event
  | 0 => []
  | n + 1 => tracePrefix verify clnts n ++ roundEvents verify clnts n

/-- The number of Verify calls on `len` clients that returned `nil` in the
rounds `0, …, n - 1`. -/
def tallyAfter (verify : Nat → Nat → Option VerifyError) (len : Nat) : Nat → Nat
  | 0 => 0
  | n + 1 => tallyAfter verify len n + onlineIn verify n 0 len

/-- The state in which pass `n` starts. -/
def stateAtPass (verify : Nat → Nat → Option VerifyError)
    (clnts : List bootstrapRESTClient) (n : Nat) : LoopState :=
  { onlineServers := tallyAfter verify clnts.length n,
    offlineEndpoints := [],
    retries := n % 5,
    round := n,
    trace := tracePrefix verify clnts n }

/-- Round `r` is started (the tally is below `len(clnts)/2`), every Verify call
of it returns `nil` or a network error, and the context is not cancelled at
its boundary. -/
def CompleteRound (verify : Nat → Nat → Option VerifyError) (ctxDone : Nat → Bool)
    (clnts : List bootstrapRESTClient) (r : Nat) : Prop :=
  tallyAfter verify clnts.length r < clnts.length / 2 ∧
  (∀ i, i < clnts.length → benign verify r i = true) ∧
  ctxDone r = false

/-- The state after a pass over all of `clnts` from the state `st` in which
every call was benign, and after the `select` that follows it. -/
def LoopState.afterFullPass (st : LoopState) (verify : Nat → Nat → Option VerifyError)
    (clnts : List bootstrapRESTClient) : LoopState :=
  { st with
    trace := st.trace ++ verifyEvents st.round 0 clnts.length ++ [Event.ctxDone st.round],
    offlineEndpoints := st.offlineEndpoints ++ offlineIn verify st.round clnts 0,
    onlineServers := st.onlineServers + onlineIn verify st.round 0 clnts.length }

/-- The event is a Verify call or a `select` on `ctx.Done()`. -/
def Event.isCallOrSelect : Event → Bool
  | .verify _ _ => true
  | .ctxDone _ => true
  | _ => false

/-- No `select` recorded in the trace found the context cancelled. -/
def NotCancelled (ctxDone : Nat → Bool) (trace : List Event) : Prop :=
  ∀ r, Event.ctxDone r ∈ trace → ctxDone r = false

/-! ## Sample topologies and schedules -/

/-- Sample endpoint on `hostD`. -/
def hostD : Endpoint := ⟨"http", "hostD", "/data", false⟩
/-- Sample endpoint on `hostE`. -/
def hostE : Endpoint := ⟨"http", "hostE", "/data", false⟩

/-- A single-node deployment: every endpoint is local. -/
def topologyLocalOnly : EndpointServerSets :=
  [⟨1, 2, [hostA, { hostA with Path := "/data2" }]⟩]

/-- A topology with four remote peers, `hostB`, `hostC`, `hostD`, `hostE`. -/
def topologyFourPeers : EndpointServerSets :=
  [⟨1, 5, [hostA, hostB, hostC, hostD, hostE]⟩]

/-- The schedule in which every Verify call returns `nil`. -/
def allOnline : Nat → Nat → Option VerifyError :=
  fun _ _ => none

/-- The schedule in which every peer is unreachable in every pass. -/
def allOffline : Nat → Nat → Option VerifyError :=
  fun _ _ => some (.call true "connection refused")

/-- The schedule in which the peer at position 0 returns `nil` and every other
peer is unreachable, in every pass. -/
def onlyFirstOnline : Nat → Nat → Option VerifyError :=
  fun _ idx => if idx = 0 then none else some (.call true "connection refused")

/-- The context is cancelled from the start. -/
def alwaysDone : Nat → Bool :=
  fun _ => true

/-- The context is cancelled during the second pass. -/
def doneFromSecond : Nat → Bool :=
  fun r => decide (1 ≤ r)

/-- A local configuration of two sets, with two endpoints and one endpoint. -/
def cfgSplitTwoOne : ServerSystemConfig :=
  ⟨linuxAmd64, "", [⟨1, 2, [node1d1, node2d1]⟩, ⟨1, 2, [node3d1]⟩]⟩

/-- A peer configuration with the same three endpoints in two sets, with one
endpoint and two endpoints. -/
def cfgSplitOneTwo : ServerSystemConfig :=
  ⟨linuxAmd64, "", [⟨1, 2, [node1d1]⟩, ⟨1, 2, [node2d1, node3d1]⟩]⟩

/-- A transport that answers every call with the body `"peer"`. -/
def sampleCall : bootstrapRESTClient → Except (Bool × String) String :=
  fun _ => .ok "peer"

/-- A decoder that reads the body `"peer"` as `cfgSplitOneTwo` and rejects
every other body. -/
def sampleDecode : String → Except String ServerSystemConfig :=
  fun body => if body = "peer" then .ok cfgSplitOneTwo else .error "invalid character"


/-! ## Lemmas on the walk -/

theorem firstMismatch_nil : firstMismatch [] = none := rfl

theorem firstMismatch_cons (c : Check) (w : List Check) :
    firstMismatch (c :: w) = if c.mismatch then some c.report else firstMismatch w := by
  cases h : c.mismatch <;> simp [firstMismatch, List.find?, h]

theorem firstMismatch_append (u w : List Check) :
    firstMismatch (u ++ w) =
      match firstMismatch u with
      | some d => some d
      | none => firstMismatch w := by
  induction u with
  | nil => simp [firstMismatch_nil]
  | cons c u ih =>
    rw [List.cons_append, firstMismatch_cons, firstMismatch_cons]
    cases c.mismatch <;> simp [ih]

theorem firstMismatch_split (pre post : List Check) (c : Check)
    (hpre : ∀ p ∈ pre, p.mismatch = false) (hc : c.mismatch = true) :
    firstMismatch (pre ++ c :: post) = some c.report := by
  induction pre with
  | nil => simp [firstMismatch_cons, hc]
  | cons p pre ih =>
    rw [List.cons_append, firstMismatch_cons, hpre p (List.mem_cons_self _ _)]
    simpa using ih (fun q hq => hpre q (List.mem_cons_of_mem _ hq))

theorem getElem?_append_length {α : Type} (pre : List α) (y : α) (r : List α) :
    (pre ++ y :: r)[pre.length]? = some y := by
  induction pre with
  | nil => simp
  | cons p pre ih => simpa using ih

theorem diffEndpoints_walk (l : List Endpoint) :
    ∀ (r pre : List Endpoint), l.length ≤ r.length →
      diffEndpoints (pre ++ r) l pre.length =
        .ok (firstMismatch (List.zipWith checkEndpoint l r)) := by
  induction l with
  | nil => intro r pre _; simp [diffEndpoints, firstMismatch_nil]
  | cons x l ih =>
    intro r pre hlen
    cases r with
    | nil => simp at hlen
    | cons y r =>
      have hget := getElem?_append_length pre y r
      have hrec := ih r (pre ++ [y]) (by simpa using hlen)
      simp only [List.append_assoc, List.singleton_append, List.length_append,
        List.length_singleton] at hrec
      simp only [diffEndpoints, hget, List.zipWith_cons_cons, firstMismatch_cons, checkEndpoint]
      by_cases hxy : x.String = y.String
      · simp [hxy, hrec, checkEndpoint]
      · simp [hxy]

theorem diffEndpoints_zero (l r : List Endpoint) (h : l.length ≤ r.length) :
    diffEndpoints r l 0 = .ok (firstMismatch (List.zipWith checkEndpoint l r)) := by
  simpa using diffEndpoints_walk l r [] h

theorem diffSets_walk (l : List EndpointSet) :
    ∀ (r pre : List EndpointSet), Covered l r →
      diffSets (pre ++ r) l pre.length = .ok (firstMismatch (walkSets l r)) := by
  induction l with
  | nil => intro r pre _; simp [diffSets, walkSets, firstMismatch_nil]
  | cons a l ih =>
    intro r pre hcov
    cases hcov with
    | @cons _ b _ r hab hrest =>
      have hget := getElem?_append_length pre b r
      have hrec := ih r (pre ++ [b]) hrest
      simp only [List.append_assoc, List.singleton_append, List.length_append,
        List.length_singleton] at hrec
      simp only [diffSets, hget, walkSets, walkSet, List.cons_append, firstMismatch_cons,
        firstMismatch_append, diffEndpoints_zero _ _ hab]
      by_cases h1 : a.SetCount = b.SetCount
      · by_cases h2 : a.DrivesPerSet = b.DrivesPerSet
        · cases hfm : firstMismatch (List.zipWith checkEndpoint a.Endpoints b.Endpoints) with
          | none => simp [h1, h2, hrec]
          | some d => simp [h1, h2]
        · simp [h1, h2]
      · simp [h1]

theorem covered_of_sameShape {s1 s2 : ServerSystemConfig} (h : SameShape s1 s2) :
    Covered s1.MinioEndpoints s2.MinioEndpoints :=
  List.Forall₂.imp (fun _ _ hab => Nat.le_of_eq hab) h

theorem nEndpoints_eq_of_covered {l r : EndpointServerSets} (h : Covered l r) :
    NEndpoints l = NEndpoints r := by
  simp [NEndpoints, List.Forall₂.length_eq h]

/-- When every set of `s2` has at least as many endpoints as its partner in
`s1`, `Diff` does not panic and returns the first mismatch of the walk. -/
theorem Diff_eq_firstMismatch (s1 s2 : ServerSystemConfig)
    (h : Covered s1.MinioEndpoints s2.MinioEndpoints) :
    s1.Diff s2 = .ok (firstMismatch (walk s1 s2)) := by
  have hsets := diffSets_walk s1.MinioEndpoints s2.MinioEndpoints [] h
  simp only [List.nil_append, List.length_nil] at hsets
  simp only [ServerSystemConfig.Diff, walk, firstMismatch_cons, hsets,
    nEndpoints_eq_of_covered h]
  by_cases hp : s1.MinioPlatform = s2.MinioPlatform <;> simp [hp]


/-! ## Positional lemmas on `Diff` -/

theorem diffEndpoints_at (eps2 : List Endpoint) (l : List Endpoint) :
    ∀ (j0 m : Nat) (x y : Endpoint), l[m]? = some x → eps2[j0 + m]? = some y →
      x.String ≠ y.String →
      (∀ m1 x1 y1, m1 < m → l[m1]? = some x1 → eps2[j0 + m1]? = some y1 →
        x1.String = y1.String) →
      diffEndpoints eps2 l j0 = .ok (some (.endpoint x.String y.String)) := by
  induction l with
  | nil => intro j0 m x y hx; simp at hx
  | cons a l ih =>
    intro j0 m x y hx hy hne hbefore
    cases m with
    | zero =>
      simp only [List.getElem?_cons_zero, Option.some.injEq] at hx
      subst hx
      simp only [Nat.add_zero] at hy
      simp [diffEndpoints, hy, hne]
    | succ m =>
      simp only [List.getElem?_cons_succ] at hx
      have hlt : j0 < eps2.length := by
        have := (List.getElem?_eq_some.1 hy).1
        omega
      obtain ⟨b, hb⟩ : ∃ b, eps2[j0]? = some b := ⟨eps2[j0], List.getElem?_eq_getElem hlt⟩
      have hab : a.String = b.String :=
        hbefore 0 a b (Nat.succ_pos m) (by simp) (by simpa using hb)
      have hrec := ih (j0 + 1) m x y hx (by rw [← hy]; congr 1; omega) hne
        (fun m1 x1 y1 hm1 h1 h2 =>
          hbefore (m1 + 1) x1 y1 (by omega) (by simpa using h1)
            (by rw [← h2]; congr 1; omega))
      simp [diffEndpoints, hb, hab, hrec]

theorem diffEndpoints_none (eps2 : List Endpoint) (l : List Endpoint) :
    ∀ (j0 : Nat), j0 + l.length ≤ eps2.length →
      (∀ m x y, l[m]? = some x → eps2[j0 + m]? = some y → x.String = y.String) →
      diffEndpoints eps2 l j0 = .ok none := by
  induction l with
  | nil => intro j0 _ _; simp [diffEndpoints]
  | cons a l ih =>
    intro j0 hlen hall
    have hlt : j0 < eps2.length := by simp at hlen; omega
    obtain ⟨b, hb⟩ : ∃ b, eps2[j0]? = some b := ⟨eps2[j0], List.getElem?_eq_getElem hlt⟩
    have hab : a.String = b.String := hall 0 a b (by simp) (by simpa using hb)
    have hrec := ih (j0 + 1) (by simp at hlen; omega)
      (fun m x y h1 h2 => hall (m + 1) x y (by simpa using h1) (by rw [← h2]; congr 1; omega))
    simp [diffEndpoints, hb, hab, hrec]

theorem diffSets_at (sets2 : EndpointServerSets) (l : List EndpointSet) :
    ∀ (i0 i : Nat) (a b : EndpointSet) (d : Discrepancy),
      l[i]? = some a → sets2[i0 + i]? = some b →
      a.SetCount = b.SetCount → a.DrivesPerSet = b.DrivesPerSet →
      diffEndpoints b.Endpoints a.Endpoints 0 = .ok (some d) →
      (∀ k a1 b1, k < i → l[k]? = some a1 → sets2[i0 + k]? = some b1 →
        a1.SetCount = b1.SetCount ∧ a1.DrivesPerSet = b1.DrivesPerSet ∧
        diffEndpoints b1.Endpoints a1.Endpoints 0 = .ok none) →
      diffSets sets2 l i0 = .ok (some d) := by
  induction l with
  | nil => intro i0 i a b d ha; simp at ha
  | cons c l ih =>
    intro i0 i a b d ha hb hsc hdp hd hbefore
    cases i with
    | zero =>
      simp only [List.getElem?_cons_zero, Option.some.injEq] at ha
      subst ha
      simp only [Nat.add_zero] at hb
      simp [diffSets, hb, hsc, hdp, hd]
    | succ i =>
      simp only [List.getElem?_cons_succ] at ha
      have hlt : i0 < sets2.length := by
        have := (List.getElem?_eq_some.1 hb).1
        omega
      obtain ⟨c2, hc2⟩ : ∃ c2, sets2[i0]? = some c2 :=
        ⟨sets2[i0], List.getElem?_eq_getElem hlt⟩
      obtain ⟨h1, h2, h3⟩ := hbefore 0 c c2 (Nat.succ_pos i) (by simp) (by simpa using hc2)
      have hrec := ih (i0 + 1) i a b d ha (by rw [← hb]; congr 1; omega) hsc hdp hd
        (fun k a1 b1 hk h4 h5 =>
          hbefore (k + 1) a1 b1 (by omega) (by simpa using h4)
            (by rw [← h5]; congr 1; omega))
      simp [diffSets, hc2, h1, h2, h3, hrec]

theorem covered_of_identical {s1 s2 : ServerSystemConfig}
    (h : StructurallyIdentical s1 s2) : Covered s1.MinioEndpoints s2.MinioEndpoints :=
  List.Forall₂.imp (fun _ _ hab => Nat.le_of_eq (List.Forall₂.length_eq hab.2.2)) h.2

theorem zipWith_checkEndpoint_none {l r : List Endpoint}
    (h : List.Forall₂ (fun x y => x.String = y.String) l r) :
    firstMismatch (List.zipWith checkEndpoint l r) = none := by
  induction h with
  | nil => rfl
  | cons hxy _ ih => simp [firstMismatch_cons, checkEndpoint, hxy, ih]

theorem walkSets_none {l r : List EndpointSet}
    (h : List.Forall₂
      (fun a b => a.SetCount = b.SetCount ∧ a.DrivesPerSet = b.DrivesPerSet ∧
        List.Forall₂ (fun x y => x.String = y.String) a.Endpoints b.Endpoints) l r) :
    firstMismatch (walkSets l r) = none := by
  induction h with
  | nil => rfl
  | cons hab _ ih =>
    simp [walkSets, walkSet, firstMismatch_cons, firstMismatch_append, hab.1, hab.2.1,
      zipWith_checkEndpoint_none hab.2.2, ih]

theorem structurallyIdentical_refl (s : ServerSystemConfig) : StructurallyIdentical s s := by
  refine ⟨rfl, ?_⟩
  have hE : ∀ l : List Endpoint, List.Forall₂ (fun x y => x.String = y.String) l l := by
    intro l
    induction l with
    | nil => exact .nil
    | cons x l ih => exact .cons rfl ih
  induction s.MinioEndpoints with
  | nil => exact .nil
  | cons a l ih => exact .cons ⟨rfl, rfl, hE _⟩ ih

theorem Diff_of_identical {s1 s2 : ServerSystemConfig} (h : StructurallyIdentical s1 s2) :
    s1.Diff s2 = .ok none := by
  rw [Diff_eq_firstMismatch s1 s2 (covered_of_identical h)]
  simp [walk, firstMismatch_cons, h.1, nEndpoints_eq_of_covered (covered_of_identical h),
    walkSets_none h.2]

/-! ## Claims on `Diff` -/

/-- C1. Two structurally identical configurations (same platform, same ordered
endpoint sets with equal `SetCount` and `DrivesPerSet`, same ordered endpoints
with equal `String()`) have no discrepancy; in particular `Diff` of a
configuration with itself returns `nil`. -/
theorem Diff_identical_nil (s1 s2 : ServerSystemConfig) (h : StructurallyIdentical s1 s2) :
    s1.Diff s2 = .ok none ∧ s1.Diff s1 = .ok none ∧ s2.Diff s2 = .ok none :=
  ⟨Diff_of_identical h, Diff_of_identical (structurallyIdentical_refl s1),
    Diff_of_identical (structurallyIdentical_refl s2)⟩

/-- Witness of C1: a configuration of two sets against the same topology as a
peer reports it. -/
theorem Diff_identical_nil_witness :
    StructurallyIdentical cfgTwoSets cfgTwoSetsPeer ∧
    cfgTwoSets ≠ cfgTwoSetsPeer ∧
    cfgTwoSets.Diff cfgTwoSetsPeer = .ok none :=
  have h : StructurallyIdentical cfgTwoSets cfgTwoSetsPeer :=
    ⟨rfl, .cons ⟨rfl, rfl, .cons rfl (.cons (by decide) .nil)⟩
      (.cons ⟨rfl, rfl, .cons rfl (.cons (by decide) .nil)⟩ .nil)⟩
  ⟨h, by decide, (Diff_identical_nil cfgTwoSets cfgTwoSetsPeer h).1⟩

/-- C2, the code at the failing inputs. `Diff` walks the endpoint sets and the
endpoints of `s1` only, and compares no length but the one count
`NEndpoints()`.  The peer `cfgOneSetExtraEmpty` has a second endpoint set
where `cfgOneSet` has one: whenever `NEndpoints()` gives the two topologies
the same number, as the number of endpoints does (2 and 2), `Diff` returns
`nil`.  The peer `cfgOneSetLonger` has three endpoints in its set where
`cfgOneSet` has two: whenever `NEndpoints()` gives the two topologies the
same number, as the number of endpoint sets does (1 and 1), `Diff` returns
`nil`. -/
theorem Diff_nil_on_differing_configs :
    (∀ count : EndpointServerSets → Int,
      count cfgOneSet.MinioEndpoints = count cfgOneSetExtraEmpty.MinioEndpoints →
      cfgOneSet.DiffWith count cfgOneSetExtraEmpty = .ok none) ∧
    totalEndpoints cfgOneSet.MinioEndpoints = 2 ∧
    totalEndpoints cfgOneSetExtraEmpty.MinioEndpoints = 2 ∧
    cfgOneSet.DiffWith totalEndpoints cfgOneSetExtraEmpty = .ok none ∧
    cfgOneSet.MinioEndpoints.length = 1 ∧
    cfgOneSetExtraEmpty.MinioEndpoints.length = 2 ∧
    (∀ count : EndpointServerSets → Int,
      count cfgOneSet.MinioEndpoints = count cfgOneSetLonger.MinioEndpoints →
      cfgOneSet.DiffWith count cfgOneSetLonger = .ok none) ∧
    (∀ s1 s2 : ServerSystemConfig, s1.Diff s2 = s1.DiffWith NEndpoints s2) ∧
    cfgOneSet.Diff cfgOneSetLonger = .ok none ∧
    (cfgOneSet.MinioEndpoints.map (fun a => a.Endpoints.length) = [2]) ∧
    (cfgOneSetLonger.MinioEndpoints.map (fun a => a.Endpoints.length) = [3]) := by
  refine ⟨?_, by decide, by decide, by decide, by decide, by decide, ?_, fun _ _ => rfl,
    by decide, by decide, by decide⟩
  · intro count h
    unfold ServerSystemConfig.DiffWith
    rw [if_neg (by decide), if_neg (by simpa using h)]
    decide
  · intro count h
    unfold ServerSystemConfig.DiffWith
    rw [if_neg (by decide), if_neg (by simpa using h)]
    decide

/-- C3. For two configurations of the same shape `Diff` returns the first
mismatch of the walk platform, endpoint count, then per set `SetCount`,
`DrivesPerSet` and the endpoint addresses positionally, reporting the value
of `s1` as expected and the value of `s2` as observed; what follows the first
mismatch in the walk has no influence on the result. -/
theorem Diff_first_mismatch (s1 s2 : ServerSystemConfig) (h : SameShape s1 s2) :
    s1.Diff s2 = .ok (firstMismatch (walk s1 s2)) ∧
    ∀ (pre post : List Check) (c : Check), walk s1 s2 = pre ++ c :: post →
      (∀ p ∈ pre, p.mismatch = false) → c.mismatch = true →
      s1.Diff s2 = .ok (some c.report) := by
  have hD := Diff_eq_firstMismatch s1 s2 (covered_of_sameShape h)
  refine ⟨hD, ?_⟩
  intro pre post c hw hpre hc
  rw [hD, hw, firstMismatch_split pre post c hpre hc]

/-- Witness of C3: the endpoint mismatch in set 0 is reported in preference to
the `SetCount` mismatch in set 1. -/
theorem Diff_first_mismatch_witness :
    SameShape cfgTwoSets cfgTwoSetsOther ∧
    cfgTwoSets.Diff cfgTwoSetsOther =
      .ok (some (.endpoint "http://node2:9000/d1" "http://node3:9000/d1")) := by
  have hs : SameShape cfgTwoSets cfgTwoSetsOther := .cons rfl (.cons rfl .nil)
  refine ⟨hs, ?_⟩
  rw [(Diff_first_mismatch cfgTwoSets cfgTwoSetsOther hs).1]
  decide

/-- C4. When the platform strings differ `Diff` returns the platform
discrepancy (expected the platform of `s1`, found the platform of `s2`), and
the result is the same for every runtime string and every topology on either
side, topologies of different shapes included. -/
theorem Diff_platform (s1 s2 : ServerSystemConfig)
    (h : s1.MinioPlatform ≠ s2.MinioPlatform) :
    s1.Diff s2 = .ok (some (.platform s1.MinioPlatform s2.MinioPlatform)) ∧
    ∀ (r1 r2 : String) (e1 e2 : EndpointServerSets),
      ServerSystemConfig.Diff ⟨s1.MinioPlatform, r1, e1⟩ ⟨s2.MinioPlatform, r2, e2⟩ =
        s1.Diff s2 := by
  simp [ServerSystemConfig.Diff, h]

/-- Witness of C4 on two configurations of different shapes. -/
theorem Diff_platform_witness :
    cfgOneSet.MinioPlatform ≠ cfgDarwin.MinioPlatform ∧
    cfgOneSet.Diff cfgDarwin =
      .ok (some (.platform "OS: linux | Arch: amd64" "OS: darwin | Arch: arm64")) :=
  ⟨by decide, (Diff_platform cfgOneSet cfgDarwin (by decide)).1⟩

/-- C5. With equal platforms and a different number of endpoint sets `Diff`
returns the endpoint-count discrepancy, whatever the endpoint sets hold: the
result is the same for all topologies with these two numbers of sets, so no
`SetCount`, `DrivesPerSet` or endpoint address is inspected (and no set of
the peer is indexed). -/
theorem Diff_endpoint_count (s1 s2 : ServerSystemConfig)
    (hp : s1.MinioPlatform = s2.MinioPlatform)
    (hn : s1.MinioEndpoints.length ≠ s2.MinioEndpoints.length) :
    s1.Diff s2 =
      .ok (some (.endpointCount s1.MinioEndpoints.length s2.MinioEndpoints.length)) ∧
    ∀ (e1 e2 : EndpointServerSets), e1.length = s1.MinioEndpoints.length →
      e2.length = s2.MinioEndpoints.length →
      ServerSystemConfig.Diff ⟨s1.MinioPlatform, s1.MinioRuntime, e1⟩
        ⟨s2.MinioPlatform, s2.MinioRuntime, e2⟩ = s1.Diff s2 := by
  have key : ∀ (e1 e2 : EndpointServerSets), e1.length = s1.MinioEndpoints.length →
      e2.length = s2.MinioEndpoints.length →
      ServerSystemConfig.Diff ⟨s1.MinioPlatform, s1.MinioRuntime, e1⟩
        ⟨s2.MinioPlatform, s2.MinioRuntime, e2⟩ =
      .ok (some (.endpointCount s1.MinioEndpoints.length s2.MinioEndpoints.length)) := by
    intro e1 e2 h1 h2
    have hne : NEndpoints e1 ≠ NEndpoints e2 := by
      simp only [NEndpoints]
      rw [h1, h2]
      exact_mod_cast hn
    simp only [ServerSystemConfig.Diff]
    rw [if_neg (by simpa using hp), if_pos hne]
    simp [NEndpoints, h1, h2]
  have h0 := key s1.MinioEndpoints s2.MinioEndpoints rfl rfl
  refine ⟨h0, ?_⟩
  intro e1 e2 h1 h2
  rw [key e1 e2 h1 h2, ← h0]

/-- Witness of C5: one set against two sets. -/
theorem Diff_endpoint_count_witness :
    cfgOneSet.MinioPlatform = cfgTwoSets.MinioPlatform ∧
    cfgOneSet.MinioEndpoints.length ≠ cfgTwoSets.MinioEndpoints.length ∧
    cfgOneSet.Diff cfgTwoSets = .ok (some (.endpointCount 1 2)) :=
  ⟨rfl, by decide, (Diff_endpoint_count cfgOneSet cfgTwoSets rfl (by decide)).1⟩

theorem endpointAt_eq_some {s : ServerSystemConfig} {i j : Nat} {x : Endpoint}
    (h : endpointAt s i j = some x) :
    ∃ a, s.MinioEndpoints[i]? = some a ∧ a.Endpoints[j]? = some x := by
  unfold endpointAt at h
  cases ha : s.MinioEndpoints[i]? with
  | none => simp [ha] at h
  | some a => exact ⟨a, rfl, by simpa [ha] using h⟩

/-- C6, as the code has it. When two configurations differ only in the
endpoint address at position `(i, j)`, `Diff` returns the endpoint discrepancy
holding the expected value (the address of `s1` at `(i, j)`) and the observed
value (the address of `s2` at `(i, j)`), and nothing else. -/
theorem Diff_single_endpoint (s1 s2 : ServerSystemConfig) (i j : Nat)
    (h : DiffersOnlyAt s1 s2 i j) :
    ∃ x y, endpointAt s1 i j = some x ∧ endpointAt s2 i j = some y ∧
      s1.Diff s2 = .ok (some (.endpoint x.String y.String)) := by
  obtain ⟨hp, hlen, hall, x, y, hx, hy, hne⟩ := h
  refine ⟨x, y, hx, hy, ?_⟩
  obtain ⟨a, ha, hax⟩ := endpointAt_eq_some hx
  obtain ⟨b, hb, hby⟩ := endpointAt_eq_some hy
  obtain ⟨hsc, hdp, -, hij⟩ := hall i a b ha hb
  have hE : diffEndpoints b.Endpoints a.Endpoints 0 =
      .ok (some (.endpoint x.String y.String)) := by
    apply diffEndpoints_at b.Endpoints a.Endpoints 0 j x y hax (by simpa using hby) hne
    intro m1 x1 y1 hm1 h1 h2
    exact hij m1 x1 y1 h1 (by simpa using h2) (by simp; omega)
  have hS : diffSets s2.MinioEndpoints s1.MinioEndpoints 0 =
      .ok (some (.endpoint x.String y.String)) := by
    apply diffSets_at s2.MinioEndpoints s1.MinioEndpoints 0 i a b _ ha (by simpa using hb)
      hsc hdp hE
    intro k a1 b1 hk h1 h2
    obtain ⟨h3, h4, h5, h6⟩ := hall k a1 b1 h1 (by simpa using h2)
    refine ⟨h3, h4, ?_⟩
    apply diffEndpoints_none
    · omega
    · intro m x1 y1 h7 h8
      exact h6 m x1 y1 h7 (by simpa using h8) (by simp; omega)
  have hN : NEndpoints s1.MinioEndpoints = NEndpoints s2.MinioEndpoints := by
    simp [NEndpoints, hlen]
  simp [ServerSystemConfig.Diff, hp, hN, hS]

theorem differsOnlyAt_single (p r1 r2 : String) (n d : Int) (l1 l2 : List Endpoint) (j : Nat)
    (x y : Endpoint) (hlen : l1.length = l2.length)
    (hx : l1[j]? = some x) (hy : l2[j]? = some y) (hne : x.String ≠ y.String)
    (hrest : ∀ m x1 y1, l1[m]? = some x1 → l2[m]? = some y1 → m ≠ j → x1.String = y1.String) :
    DiffersOnlyAt ⟨p, r1, [⟨n, d, l1⟩]⟩ ⟨p, r2, [⟨n, d, l2⟩]⟩ 0 j := by
  refine ⟨rfl, rfl, ?_, x, y, by simpa [endpointAt] using hx, by simpa [endpointAt] using hy, hne⟩
  intro k a b ha hb
  cases k with
  | zero =>
    simp only [List.getElem?_cons_zero, Option.some.injEq] at ha hb
    subst ha hb
    refine ⟨rfl, rfl, hlen, ?_⟩
    intro m x1 y1 h1 h2 h3
    exact hrest m x1 y1 h1 h2 (fun hm => h3 (by rw [hm]))
  | succ k => simp at ha

/-- Witness of `Diff_single_endpoint` at position `(0, 1)`. -/
theorem Diff_single_endpoint_witness :
    DiffersOnlyAt cfgSecondA cfgSecondB 0 1 ∧
    ∃ x y, endpointAt cfgSecondA 0 1 = some x ∧ endpointAt cfgSecondB 0 1 = some y ∧
      cfgSecondA.Diff cfgSecondB = .ok (some (.endpoint x.String y.String)) := by
  have h : DiffersOnlyAt cfgSecondA cfgSecondB 0 1 := by
    apply differsOnlyAt_single linuxAmd64 "" "" 1 2 [node1d1, node2d1] [node1d1, node3d1] 1
      node2d1 node3d1 rfl rfl rfl (by decide)
    intro m x1 y1 h1 h2 hm
    match m, hm with
    | 0, _ =>
      simp only [List.getElem?_cons_zero, Option.some.injEq] at h1 h2
      rw [← h1, ← h2]
    | 1, hm => exact absurd rfl hm
    | m + 2, _ => simp at h1
  exact ⟨h, Diff_single_endpoint cfgSecondA cfgSecondB 0 1 h⟩

/-- C6 as stated fails: the error of `Diff` holds the two addresses and no
position.  The pair `cfgFirstA`, `cfgFirstB` differs only at `(0, 0)`, the pair
`cfgSecondA`, `cfgSecondB` only at `(0, 1)`, and `Diff` returns the same error,
with the same text, for both. -/
theorem Diff_endpoint_error_has_no_indices :
    DiffersOnlyAt cfgFirstA cfgFirstB 0 0 ∧ DiffersOnlyAt cfgSecondA cfgSecondB 0 1 ∧
    cfgFirstA.Diff cfgFirstB = cfgSecondA.Diff cfgSecondB ∧
    cfgSecondA.Diff cfgSecondB =
      .ok (some (.endpoint "http://node2:9000/d1" "http://node3:9000/d1")) ∧
    (Discrepancy.endpoint "http://node2:9000/d1" "http://node3:9000/d1").Error =
      "Expected endpoint http://node2:9000/d1, seen http://node3:9000/d1" ∧
    ¬ ∃ position : DiffResult → Nat × Nat, ∀ s1 s2 i j, DiffersOnlyAt s1 s2 i j →
      position (s1.Diff s2) = (i, j) := by
  have hA : DiffersOnlyAt cfgFirstA cfgFirstB 0 0 := by
    apply differsOnlyAt_single linuxAmd64 "" "" 1 2 [node2d1, node1d1] [node3d1, node1d1] 0
      node2d1 node3d1 rfl rfl rfl (by decide)
    intro m x1 y1 h1 h2 hm
    match m, hm with
    | 0, hm => exact absurd rfl hm
    | 1, _ =>
      simp only [List.getElem?_cons_succ, List.getElem?_cons_zero, Option.some.injEq] at h1 h2
      rw [← h1, ← h2]
    | m + 2, _ => simp at h1
  have hB : DiffersOnlyAt cfgSecondA cfgSecondB 0 1 := by
    apply differsOnlyAt_single linuxAmd64 "" "" 1 2 [node1d1, node2d1] [node1d1, node3d1] 1
      node2d1 node3d1 rfl rfl rfl (by decide)
    intro m x1 y1 h1 h2 hm
    match m, hm with
    | 0, _ =>
      simp only [List.getElem?_cons_zero, Option.some.injEq] at h1 h2
      rw [← h1, ← h2]
    | 1, hm => exact absurd rfl hm
    | m + 2, _ => simp at h1
  have heq : cfgFirstA.Diff cfgFirstB = cfgSecondA.Diff cfgSecondB := by decide
  refine ⟨hA, hB, heq, by decide, by decide, ?_⟩
  rintro ⟨position, hpos⟩
  have h1 := hpos cfgFirstA cfgFirstB 0 0 hA
  have h2 := hpos cfgSecondA cfgSecondB 0 1 hB
  rw [heq, h2] at h1
  exact absurd h1 (by decide)

/-! ## Lemmas on `newBootstrapRESTClients` -/

theorem scanEndpoints_append (l1 l2 : List Endpoint) :
    ∀ st, scanEndpoints (l1 ++ l2) st = scanEndpoints l2 (scanEndpoints l1 st) := by
  induction l1 with
  | nil => intro st; rfl
  | cons e l1 ih =>
    intro st
    simp only [List.cons_append, scanEndpoints]
    split
    · exact ih _
    · split <;> exact ih _

theorem scanSets_eq (sets : EndpointServerSets) :
    ∀ st, scanSets sets st = scanEndpoints (allEndpoints sets) st := by
  induction sets with
  | nil => intro st; rfl
  | cons ep rest ih =>
    intro st
    simp only [scanSets, allEndpoints, scanEndpoints_append, ih]

theorem scanEndpoints_clnts (l : List Endpoint) :
    ∀ st, (scanEndpoints l st).clnts = st.clnts ++ newClients st.seenHosts l := by
  induction l with
  | nil => intro st; simp [scanEndpoints, newClients]
  | cons e l ih =>
    intro st
    simp only [scanEndpoints, newClients]
    by_cases hseen : e.Host ∈ st.seenHosts
    · simp only [hseen, if_true]
      exact ih st
    · simp only [hseen, if_false]
      cases hloc : e.IsLocal <;> simp [ih]

theorem newBootstrapRESTClients_eq (sets : EndpointServerSets) :
    newBootstrapRESTClients sets = newClients [] (allEndpoints sets) := by
  simp [newBootstrapRESTClients, scanSets_eq, scanEndpoints_clnts]

theorem firstWithHost_cons_ne {e : Endpoint} {h : String} (l : List Endpoint)
    (hne : e.Host ≠ h) : firstWithHost h (e :: l) = firstWithHost h l := by
  simp [firstWithHost, hne]

theorem firstWithHost_cons_self (e : Endpoint) (l : List Endpoint) :
    firstWithHost e.Host (e :: l) = some e := by
  simp [firstWithHost]

theorem newClients_sound (l : List Endpoint) :
    ∀ seen c, c ∈ newClients seen l →
      c.endpoint.IsLocal = false ∧ c.endpoint.Host ∉ seen ∧
      firstWithHost c.endpoint.Host l = some c.endpoint := by
  induction l with
  | nil => intro seen c hc; simp [newClients] at hc
  | cons e l ih =>
    intro seen c hc
    simp only [newClients] at hc
    by_cases hseen : e.Host ∈ seen
    · simp only [hseen, if_true] at hc
      obtain ⟨h1, h2, h3⟩ := ih seen c hc
      have hne : e.Host ≠ c.endpoint.Host := fun heq => h2 (heq ▸ hseen)
      exact ⟨h1, h2, by rw [firstWithHost_cons_ne l hne, h3]⟩
    · simp only [hseen, if_false, List.mem_append] at hc
      rcases hc with hc | hc
      · cases hloc : e.IsLocal
        · simp only [hloc, Bool.false_eq_true, if_false, List.mem_singleton] at hc
          subst hc
          exact ⟨hloc, hseen, firstWithHost_cons_self e l⟩
        · simp [hloc] at hc
      · obtain ⟨h1, h2, h3⟩ := ih (e.Host :: seen) c hc
        have hne : e.Host ≠ c.endpoint.Host := fun heq => h2 (by simp [heq])
        exact ⟨h1, fun hmem => h2 (List.mem_cons_of_mem _ hmem),
          by rw [firstWithHost_cons_ne l hne, h3]⟩

theorem newClients_complete (l : List Endpoint) :
    ∀ seen (h : String) (e : Endpoint), h ∉ seen → firstWithHost h l = some e →
      e.IsLocal = false → newBootstrapRESTClient e ∈ newClients seen l := by
  induction l with
  | nil => intro seen h e _ hf; simp [firstWithHost] at hf
  | cons a l ih =>
    intro seen h e hns hf hloc
    by_cases hah : a.Host = h
    · subst hah
      rw [firstWithHost_cons_self] at hf
      simp only [Option.some.injEq] at hf
      subst hf
      simp [newClients, hns, hloc]
    · rw [firstWithHost_cons_ne l hah] at hf
      simp only [newClients]
      by_cases hseen : a.Host ∈ seen
      · simp only [hseen, if_true]
        exact ih seen h e hns hf hloc
      · simp only [hseen, if_false, List.mem_append]
        right
        refine ih (a.Host :: seen) h e ?_ hf hloc
        simp only [List.mem_cons, not_or]
        exact ⟨fun heq => hah heq.symm, hns⟩

theorem newClients_nodup (l : List Endpoint) :
    ∀ seen, (clientHosts (newClients seen l)).Nodup := by
  induction l with
  | nil => intro seen; simp [newClients, clientHosts]
  | cons e l ih =>
    intro seen
    simp only [newClients]
    by_cases hseen : e.Host ∈ seen
    · simp only [hseen, if_true]
      exact ih seen
    · simp only [hseen, if_false]
      cases hloc : e.IsLocal
      · simp only [Bool.false_eq_true, if_false, List.singleton_append, clientHosts,
          List.map_cons, List.nodup_cons, newBootstrapRESTClient]
        refine ⟨?_, ih (e.Host :: seen)⟩
        intro hmem
        obtain ⟨c, hc, hch⟩ := List.mem_map.1 hmem
        have := (newClients_sound l (e.Host :: seen) c hc).2.1
        exact this (by simp [hch])
      · simpa using ih (e.Host :: seen)

theorem newClients_ordered (l : List Endpoint) :
    ∀ seen, (newClients seen l).Pairwise (fun c d =>
      (l.map (fun e => e.Host)).indexOf c.endpoint.Host <
        (l.map (fun e => e.Host)).indexOf d.endpoint.Host) := by
  induction l with
  | nil => intro seen; simp [newClients]
  | cons e l ih =>
    intro seen
    have shift : ∀ seen1, e.Host ∈ seen1 →
        (newClients seen1 l).Pairwise (fun c d =>
          ((e :: l).map (fun e => e.Host)).indexOf c.endpoint.Host <
            ((e :: l).map (fun e => e.Host)).indexOf d.endpoint.Host) := by
      intro seen1 he
      have hne : ∀ c ∈ newClients seen1 l, e.Host ≠ c.endpoint.Host :=
        fun c hc heq => (newClients_sound l seen1 c hc).2.1 (heq ▸ he)
      refine List.Pairwise.imp_of_mem ?_ (ih seen1)
      intro c d hc hd hlt
      rw [List.map_cons, List.indexOf_cons_ne _ (hne c hc), List.indexOf_cons_ne _ (hne d hd)]
      exact Nat.succ_lt_succ hlt
    simp only [newClients]
    by_cases hseen : e.Host ∈ seen
    · simp only [hseen, if_true]
      exact shift seen hseen
    · simp only [hseen, if_false]
      have htail := shift (e.Host :: seen) (List.mem_cons_self _ _)
      cases hloc : e.IsLocal
      · simp only [Bool.false_eq_true, if_false, List.singleton_append, List.pairwise_cons]
        refine ⟨?_, htail⟩
        intro d hd
        have hne : e.Host ≠ d.endpoint.Host :=
          fun heq => (newClients_sound l (e.Host :: seen) d hd).2.1 (by simp [heq])
        rw [List.map_cons, newBootstrapRESTClient, List.indexOf_cons_self,
          List.indexOf_cons_ne _ hne]
        exact Nat.succ_pos _
      · simpa using htail

/-! ## Claims on `newBootstrapRESTClients` -/

/-- C7. The clients of `newBootstrapRESTClients` have pairwise distinct hosts;
each is built from an endpoint of the topology that is not flagged `IsLocal`
and is the first endpoint of its host in the scan; they stand in the order in
which their hosts are first met, scanning sets and then endpoints
positionally; for `[{hostA, hostB}, {hostB, hostC}]` with `hostA` local the
result is the client of `hostB`, then the client of `hostC`. -/
theorem newBootstrapRESTClients_distinct_remote_in_order (sets : EndpointServerSets) :
    (clientHosts (newBootstrapRESTClients sets)).Nodup ∧
    (∀ c ∈ newBootstrapRESTClients sets,
      c.endpoint ∈ allEndpoints sets ∧ c.endpoint.IsLocal = false ∧
      firstWithHost c.endpoint.Host (allEndpoints sets) = some c.endpoint) ∧
    (newBootstrapRESTClients sets).Pairwise (fun c d =>
      ((allEndpoints sets).map (fun e => e.Host)).indexOf c.endpoint.Host <
        ((allEndpoints sets).map (fun e => e.Host)).indexOf d.endpoint.Host) ∧
    newBootstrapRESTClients topologyABC =
      [newBootstrapRESTClient hostB, newBootstrapRESTClient hostC] := by
  rw [newBootstrapRESTClients_eq]
  refine ⟨newClients_nodup _ _, ?_, newClients_ordered _ _, by decide⟩
  intro c hc
  obtain ⟨h1, -, h3⟩ := newClients_sound _ _ c hc
  exact ⟨List.mem_of_find?_eq_some h3, h1, h3⟩

/-- C8 as stated fails: in `topologyMixed` the host `node1:9000` carries a
non-local endpoint, and it gets no client, because its first endpoint in the
scan is flagged local. -/
theorem newBootstrapRESTClients_skips_host_first_seen_local :
    clientHosts (newBootstrapRESTClients topologyMixed) = [] ∧
    ((allEndpoints topologyMixed).filter (fun e => !e.IsLocal)).map (fun e => e.Host) =
      ["node1:9000"] := by
  decide

/-- C8, as the code has it. A host has a client exactly when the first
endpoint of that host in the scan is not flagged `IsLocal`, and then it has
exactly one; when all endpoints of a host carry the same flag, these are the
hosts of the endpoints that are not flagged `IsLocal`. -/
theorem newBootstrapRESTClients_hosts (sets : EndpointServerSets) :
    (∀ h, h ∈ clientHosts (newBootstrapRESTClients sets) ↔
      ∃ e, firstWithHost h (allEndpoints sets) = some e ∧ e.IsLocal = false) ∧
    (∀ h, (clientHosts (newBootstrapRESTClients sets)).count h ≤ 1) ∧
    ((∀ e1 ∈ allEndpoints sets, ∀ e2 ∈ allEndpoints sets,
        e1.Host = e2.Host → e1.IsLocal = e2.IsLocal) →
      ∀ h, h ∈ clientHosts (newBootstrapRESTClients sets) ↔
        ∃ e ∈ allEndpoints sets, e.Host = h ∧ e.IsLocal = false) := by
  rw [newBootstrapRESTClients_eq]
  have hiff : ∀ h, h ∈ clientHosts (newClients [] (allEndpoints sets)) ↔
      ∃ e, firstWithHost h (allEndpoints sets) = some e ∧ e.IsLocal = false := by
    intro h
    constructor
    · intro hmem
      obtain ⟨c, hc, hch⟩ := List.mem_map.1 hmem
      obtain ⟨h1, -, h3⟩ := newClients_sound _ _ c hc
      exact ⟨c.endpoint, hch ▸ h3, h1⟩
    · rintro ⟨e, hf, hloc⟩
      have hmem := newClients_complete _ [] h e (by simp) hf hloc
      have hhost : e.Host = h := by
        have := List.find?_some hf
        simpa using this
      exact List.mem_map.2 ⟨_, hmem, by simpa [newBootstrapRESTClient] using hhost⟩
  refine ⟨hiff, fun h => List.nodup_iff_count_le_one.1 (newClients_nodup _ _) h, ?_⟩
  intro hflag h
  rw [hiff h]
  constructor
  · rintro ⟨e, hf, hloc⟩
    have hhost : e.Host = h := by
      have := List.find?_some hf
      simpa using this
    exact ⟨e, List.mem_of_find?_eq_some hf, hhost, hloc⟩
  · rintro ⟨e, he, hhost, hloc⟩
    cases hf : firstWithHost h (allEndpoints sets) with
    | none =>
      have := List.find?_eq_none.1 hf e he
      simp [hhost] at this
    | some e0 =>
      have h0 : e0.Host = h := by
        have := List.find?_some hf
        simpa using this
      refine ⟨e0, rfl, ?_⟩
      rw [hflag e0 (List.mem_of_find?_eq_some hf) e he (h0.trans hhost.symm), hloc]

/-! ## Lemmas on the loop -/

theorem verifyEvents_succ (round idx n : Nat) :
    verifyEvents round idx (n + 1) = Event.verify round idx :: verifyEvents round (idx + 1) n := by
  simp [verifyEvents, List.range'_succ]

theorem verifyEvents_concat (round idx n : Nat) :
    verifyEvents round idx (n + 1) = verifyEvents round idx n ++ [Event.verify round (idx + n)] := by
  simp [verifyEvents, List.range'_concat]

theorem mem_verifyEvents {round idx n : Nat} {ev : Event} (h : ev ∈ verifyEvents round idx n) :
    ∃ i, i < n ∧ ev = Event.verify round (idx + i) := by
  simp only [verifyEvents, List.mem_map, List.mem_range'_1] at h
  obtain ⟨a, ⟨h1, h2⟩, rfl⟩ := h
  exact ⟨a - idx, by omega, by congr 1; omega⟩

theorem onlineIn_succ (verify : Nat → Nat → Option VerifyError) (round idx n : Nat) :
    onlineIn verify round idx (n + 1) =
      (if (verify round idx).isNone then 1 else 0) + onlineIn verify round (idx + 1) n := by
  simp only [onlineIn, List.range'_succ, List.filter_cons]
  split
  · simp only [List.length_cons, if_pos]
    omega
  · simp

theorem allBenign_append {verify : Nat → Nat → Option VerifyError} {t u : List Event}
    (ht : AllBenign verify t) (hu : AllBenign verify u) : AllBenign verify (t ++ u) := by
  intro r k hmem
  rcases List.mem_append.1 hmem with h | h
  · exact ht r k h
  · exact hu r k h

theorem allBenign_verifyEvents {verify : Nat → Nat → Option VerifyError} {round idx n : Nat}
    (h : ∀ i, i < n → benign verify round (idx + i) = true) :
    AllBenign verify (verifyEvents round idx n) := by
  intro r k hmem
  obtain ⟨i, hi, heq⟩ := mem_verifyEvents hmem
  cases heq
  exact h i hi

/-- What a pass does: either every call is benign and the pass runs to its
end, or it stops at the first call that returns a non-network error. -/
theorem verifyPass_spec (verify : Nat → Nat → Option VerifyError) (round : Nat)
    (cl : List bootstrapRESTClient) :
    ∀ (idx : Nat) (st : LoopState),
      ((∀ i, i < cl.length → benign verify round (idx + i) = true) ∧
        verifyPass verify round cl idx st =
          (none, st.afterCalls round idx cl.length (offlineIn verify round cl idx)
            (onlineIn verify round idx cl.length))) ∨
      ∃ k c e, cl[k]? = some c ∧ verify round (idx + k) = some e ∧
        isNetworkError e = false ∧ (∀ i, i < k → benign verify round (idx + i) = true) ∧
        verifyPass verify round cl idx st =
          (some (.incorrectConfiguration c.String e),
            st.afterCalls round idx (k + 1) (offlineIn verify round (cl.take k) idx)
              (onlineIn verify round idx k)) := by
  induction cl with
  | nil =>
    intro idx st
    left
    refine ⟨fun i hi => absurd hi (Nat.not_lt_zero i), ?_⟩
    simp [verifyPass, LoopState.afterCalls, verifyEvents, offlineIn, onlineIn]
  | cons c rest ih =>
    intro idx st
    cases hv : verify round idx with
    | none =>
      have hb0 : benign verify round idx = true := by simp [benign, hv]
      rcases ih (idx + 1)
        { st with trace := st.trace ++ [Event.verify round idx],
                  onlineServers := st.onlineServers + 1 } with ⟨hben, hrun⟩ | ⟨k, c1, e, hk, he, hnet, hben, hrun⟩
      · left
        refine ⟨?_, ?_⟩
        · intro i hi
          cases i with
          | zero => simpa using hb0
          | succ i =>
            have := hben i (by simpa using hi)
            rwa [show idx + (i + 1) = idx + 1 + i by omega]
        · simp only [verifyPass, hv, hrun, LoopState.afterCalls, List.length_cons,
            verifyEvents_succ, onlineIn_succ, offlineIn]
          simp [Nat.add_assoc]
      · right
        refine ⟨k + 1, c1, e, by simpa using hk, by rw [← he]; congr 1; omega, hnet, ?_, ?_⟩
        · intro i hi
          cases i with
          | zero => simpa using hb0
          | succ i =>
            have := hben i (by omega)
            rwa [show idx + (i + 1) = idx + 1 + i by omega]
        · simp only [verifyPass, hv, hrun, LoopState.afterCalls, List.take_succ_cons,
            verifyEvents_succ, onlineIn_succ, offlineIn]
          simp [Nat.add_assoc]
    | some err =>
      cases hnet0 : isNetworkError err with
      | true =>
        have hb0 : benign verify round idx = true := by simp [benign, hv, hnet0]
        rcases ih (idx + 1)
          { st with trace := st.trace ++ [Event.verify round idx],
                    offlineEndpoints := st.offlineEndpoints ++ [c.String] } with ⟨hben, hrun⟩ | ⟨k, c1, e, hk, he, hnet, hben, hrun⟩
        · left
          refine ⟨?_, ?_⟩
          · intro i hi
            cases i with
            | zero => simpa using hb0
            | succ i =>
              have := hben i (by simpa using hi)
              rwa [show idx + (i + 1) = idx + 1 + i by omega]
          · simp only [verifyPass, hv, hnet0, if_true, hrun, LoopState.afterCalls,
              List.length_cons, verifyEvents_succ, onlineIn_succ, offlineIn]
            simp [hnet0]
        · right
          refine ⟨k + 1, c1, e, by simpa using hk, by rw [← he]; congr 1; omega, hnet, ?_, ?_⟩
          · intro i hi
            cases i with
            | zero => simpa using hb0
            | succ i =>
              have := hben i (by omega)
              rwa [show idx + (i + 1) = idx + 1 + i by omega]
          · simp only [verifyPass, hv, hnet0, if_true, hrun, LoopState.afterCalls,
              List.take_succ_cons, verifyEvents_succ, onlineIn_succ, offlineIn]
            simp [hnet0]
      | false =>
        right
        refine ⟨0, c, err, by simp, by simpa using hv, hnet0,
          fun i hi => absurd hi (Nat.not_lt_zero i), ?_⟩
        simp [verifyPass, hv, hnet0, LoopState.afterCalls, verifyEvents, offlineIn, onlineIn]

theorem afterPass_offline (clnts : List bootstrapRESTClient) (st : LoopState) :
    (afterPass clnts st).offlineEndpoints = [] := rfl

theorem afterPass_allBenign {verify : Nat → Nat → Option VerifyError}
    (clnts : List bootstrapRESTClient) (st : LoopState) (h : AllBenign verify st.trace) :
    AllBenign verify (afterPass clnts st).trace := by
  intro r k hmem
  apply h r k
  simp only [afterPass] at hmem
  split at hmem <;> simpa using hmem

/-- What a run of the loop does: it either stops at the first Verify call
that returns a non-network error, having made only benign calls before, or
it makes benign calls only and does not return a configuration error. -/
theorem verifyLoop_spec (verify : Nat → Nat → Option VerifyError) (ctxDone : Nat → Bool)
    (clnts : List bootstrapRESTClient) :
    ∀ (fuel : Nat) (st : LoopState), AllBenign verify st.trace → st.offlineEndpoints = [] →
      (∃ pre k c e,
        (verifyLoop verify ctxDone clnts fuel st).1 =
          some (.incorrectConfiguration c.String e) ∧
        clnts[k]? = some c ∧
        verify (verifyLoop verify ctxDone clnts fuel st).2.round k = some e ∧
        isNetworkError e = false ∧
        (verifyLoop verify ctxDone clnts fuel st).2.trace =
          pre ++ [Event.verify (verifyLoop verify ctxDone clnts fuel st).2.round k] ∧
        AllBenign verify pre ∧
        (verifyLoop verify ctxDone clnts fuel st).2.offlineEndpoints =
          offlineIn verify (verifyLoop verify ctxDone clnts fuel st).2.round
            (clnts.take k) 0) ∨
      ((∀ name e, (verifyLoop verify ctxDone clnts fuel st).1 ≠
          some (.incorrectConfiguration name e)) ∧
        AllBenign verify (verifyLoop verify ctxDone clnts fuel st).2.trace) := by
  intro fuel
  induction fuel with
  | zero =>
    intro st hst _
    right
    simp only [verifyLoop]
    split <;> exact ⟨by simp, hst⟩
  | succ fuel ih =>
    intro st hst hoff
    by_cases hguard : st.onlineServers < clnts.length / 2
    · rcases verifyPass_spec verify st.round clnts 0 st with
        ⟨hben, hrun⟩ | ⟨k, c, e, hk, he, hnet, hben, hrun⟩
      · have hst1 : AllBenign verify
            (st.afterCalls st.round 0 clnts.length (offlineIn verify st.round clnts 0)
              (onlineIn verify st.round 0 clnts.length)).trace :=
          allBenign_append hst (allBenign_verifyEvents hben)
        simp only [verifyLoop, hguard, if_true, hrun]
        by_cases hdone : ctxDone
            (st.afterCalls st.round 0 clnts.length (offlineIn verify st.round clnts 0)
              (onlineIn verify st.round 0 clnts.length)).round = true
        · right
          simp only [hdone, if_true]
          refine ⟨by simp, ?_⟩
          intro r k hmem
          apply hst1 r k
          simpa using hmem
        · simp only [hdone]
          apply ih
          · apply afterPass_allBenign
            intro r k hmem
            apply hst1 r k
            simpa using hmem
          · exact afterPass_offline _ _
      · left
        refine ⟨st.trace ++ verifyEvents st.round 0 k, k, c, e, ?_, hk, ?_, hnet, ?_, ?_, ?_⟩
        · simp only [verifyLoop, hguard, if_true, hrun]
        · simp only [verifyLoop, hguard, if_true, hrun, LoopState.afterCalls]
          simpa using he
        · simp only [verifyLoop, hguard, if_true, hrun, LoopState.afterCalls,
            verifyEvents_concat, List.append_assoc, Nat.zero_add]
        · exact allBenign_append hst (allBenign_verifyEvents hben)
        · simp only [verifyLoop, hguard, if_true, hrun, LoopState.afterCalls, hoff,
            List.nil_append]
    · right
      simp only [verifyLoop, hguard, if_false]
      exact ⟨by simp, hst⟩

theorem allBenign_nil (verify : Nat → Nat → Option VerifyError) : AllBenign verify [] := by
  intro r k hmem
  simp at hmem

/-! ## Claims on `verifyServerSystemConfig` -/

/-- C9. Whenever a Verify call made by the loop (on the client at position
`k`, in pass `r`) returns a non-network error `e`, the loop returns the error
that wraps `e` and names the `String()` of that client; that call is the last
event of the run, so no Verify call, sleep or log follows it, and every
Verify call before it returned `nil` or a network error; the offline list
holds the clients before position `k` that returned a network error in that
pass, so the failing client is not added to it; and the loop does not return
`nil`. -/
theorem verifyServerSystemConfig_fatal_aborts (verify : Nat → Nat → Option VerifyError)
    (ctxDone : Nat → Bool) (endpointServerSets : EndpointServerSets) (fuel r k : Nat)
    (e : VerifyError)
    (hcall : Event.verify r k ∈
      (verifyServerSystemConfig verify ctxDone endpointServerSets fuel).2.trace)
    (he : verify r k = some e) (hnet : isNetworkError e = false) :
    (∃ c, (newBootstrapRESTClients endpointServerSets)[k]? = some c ∧
      (verifyServerSystemConfig verify ctxDone endpointServerSets fuel).1 =
        some (.incorrectConfiguration c.String e)) ∧
    (∃ pre, (verifyServerSystemConfig verify ctxDone endpointServerSets fuel).2.trace =
        pre ++ [Event.verify r k] ∧ AllBenign verify pre) ∧
    (verifyServerSystemConfig verify ctxDone endpointServerSets fuel).2.offlineEndpoints =
      offlineIn verify r ((newBootstrapRESTClients endpointServerSets).take k) 0 ∧
    (verifyServerSystemConfig verify ctxDone endpointServerSets fuel).1 ≠ some .nil := by
  have hbad : benign verify r k = false := by simp [benign, he, hnet]
  unfold verifyServerSystemConfig at hcall ⊢
  rcases verifyLoop_spec verify ctxDone (newBootstrapRESTClients endpointServerSets) fuel
      LoopState.init (allBenign_nil verify) rfl with
    ⟨pre, k1, c, e1, hres, hk1, he1, -, htrace, hpre, hoff⟩ | ⟨-, hall⟩
  · rw [htrace] at hcall
    rcases List.mem_append.1 hcall with hmem | hmem
    · rw [hpre r k hmem] at hbad
      exact absurd hbad (by simp)
    · simp only [List.mem_singleton, Event.verify.injEq] at hmem
      obtain ⟨hr, hk⟩ := hmem
      rw [← hr, ← hk] at he1 htrace hoff
      rw [← hk] at hk1
      have hee : e1 = e := by
        rw [he] at he1
        exact (Option.some.inj he1).symm
      subst hee
      refine ⟨⟨c, hk1, hres⟩, ⟨pre, htrace, hpre⟩, hoff, ?_⟩
      rw [hres]
      simp
  · rw [hall r k hcall] at hbad
    exact absurd hbad (by simp)

/-- Witness of C9: with two remote peers, the first unreachable and the second
mismatching, the call on the second peer in pass 0 ends the run. -/
theorem verifyServerSystemConfig_fatal_aborts_witness :
    Event.verify 0 1 ∈
      (verifyServerSystemConfig offlineThenMismatch neverDone topologyTwoPeers 3).2.trace ∧
    (verifyServerSystemConfig offlineThenMismatch neverDone topologyTwoPeers 3).1 =
      some (.incorrectConfiguration "http://hostC/data" (.diff platformMismatch)) ∧
    (verifyServerSystemConfig offlineThenMismatch neverDone topologyTwoPeers 3).2.trace =
      [Event.verify 0 0, Event.verify 0 1] ∧
    (verifyServerSystemConfig offlineThenMismatch neverDone topologyTwoPeers 3).2.offlineEndpoints =
      ["http://hostB/data"] ∧
    (verifyServerSystemConfig offlineThenMismatch neverDone topologyTwoPeers 3).1 ≠ some .nil :=
  ⟨by decide, by decide, by decide, by decide,
    (verifyServerSystemConfig_fatal_aborts offlineThenMismatch neverDone topologyTwoPeers 3 0 1
      (.diff platformMismatch) (by decide) rfl rfl).2.2.2⟩

/-- C10 as stated fails for one remote peer: `len(clnts)/2` is 0, the loop
body is never entered, and the loop returns `nil` without a Verify call
although the peer would return a mismatch on every call.  It also fails when
a peer ahead of the mismatching one returns an undecodable body: the error
returned wraps the decode error. -/
theorem verifyServerSystemConfig_single_peer_not_verified :
    (newBootstrapRESTClients topologyOnePeer).length = 1 ∧
    (∀ fuel, verifyServerSystemConfig alwaysMismatch neverDone topologyOnePeer fuel =
      (some .nil, LoopState.init)) ∧
    (newBootstrapRESTClients topologyTwoPeers).length = 2 ∧
    (verifyServerSystemConfig undecodableThenMismatch neverDone topologyTwoPeers 3).1 =
      some (.incorrectConfiguration "http://hostB/data" (.decode "unexpected EOF")) := by
  refine ⟨by decide, ?_, by decide, by decide⟩
  intro fuel
  cases fuel <;> rfl

/-- C10, as the code has it. With at least two remote peers, when the peer at
position `k` returns a configuration mismatch on every call, one pass suffices:
the loop returns the error wrapping the first non-network error of pass 0,
raised at a position `j ≤ k`, after the Verify calls on positions `0, …, j`
and nothing else; that error is a mismatch discrepancy when every non-network
error ahead of `k` is one, and it is the mismatch of the peer at `k`, named by
its `String()`, when every call ahead of `k` returns `nil` or a network
error. -/
theorem verifyServerSystemConfig_mismatch_terminates
    (verify : Nat → Nat → Option VerifyError) (ctxDone : Nat → Bool)
    (endpointServerSets : EndpointServerSets) (fuel k : Nat) (c : bootstrapRESTClient)
    (d : Discrepancy)
    (hN : 2 ≤ (newBootstrapRESTClients endpointServerSets).length)
    (hk : (newBootstrapRESTClients endpointServerSets)[k]? = some c)
    (hmis : ∀ r, verify r k = some (.diff d)) (hfuel : 1 ≤ fuel) :
    (∃ j c1 e, j ≤ k ∧ (newBootstrapRESTClients endpointServerSets)[j]? = some c1 ∧
      verify 0 j = some e ∧ isNetworkError e = false ∧
      (∀ i, i < j → benign verify 0 i = true) ∧
      (verifyServerSystemConfig verify ctxDone endpointServerSets fuel).1 =
        some (.incorrectConfiguration c1.String e) ∧
      (verifyServerSystemConfig verify ctxDone endpointServerSets fuel).2.trace =
        verifyEvents 0 0 (j + 1)) ∧
    ((∀ i e, i < k → verify 0 i = some e → isNetworkError e = false → ∃ d1, e = .diff d1) →
      ∃ name d1, (verifyServerSystemConfig verify ctxDone endpointServerSets fuel).1 =
        some (.incorrectConfiguration name (.diff d1))) ∧
    ((∀ i, i < k → benign verify 0 i = true) →
      (verifyServerSystemConfig verify ctxDone endpointServerSets fuel).1 =
        some (.incorrectConfiguration c.String (.diff d))) := by
  obtain ⟨fuel, rfl⟩ : ∃ n, fuel = n + 1 := ⟨fuel - 1, by omega⟩
  have hguard : LoopState.init.onlineServers <
      (newBootstrapRESTClients endpointServerSets).length / 2 := by
    simp only [LoopState.init]
    omega
  have hklt : k < (newBootstrapRESTClients endpointServerSets).length :=
    (List.getElem?_eq_some.1 hk).1
  have hbad : benign verify 0 k = false := by simp [benign, hmis 0, isNetworkError]
  have hround : LoopState.init.round = 0 := rfl
  rcases verifyPass_spec verify 0 (newBootstrapRESTClients endpointServerSets) 0
      LoopState.init with ⟨hben, -⟩ | ⟨j, c1, e, hj, he, hnet, hben, hrun⟩
  · have := hben k hklt
    rw [Nat.zero_add, hbad] at this
    exact absurd this (by simp)
  · rw [Nat.zero_add] at he
    have hben1 : ∀ i, i < j → benign verify 0 i = true := by
      intro i hi
      simpa using hben i hi
    have hjk : j ≤ k := by
      by_contra hlt
      have := hben1 k (by omega)
      rw [hbad] at this
      exact absurd this (by simp)
    have hres : verifyServerSystemConfig verify ctxDone endpointServerSets (fuel + 1) =
        (some (.incorrectConfiguration c1.String e),
          LoopState.init.afterCalls 0 0 (j + 1)
            (offlineIn verify 0 ((newBootstrapRESTClients endpointServerSets).take j) 0)
            (onlineIn verify 0 0 j)) := by
      simp only [verifyServerSystemConfig, verifyLoop, hguard, if_true, hround, hrun]
    have hjbad : benign verify 0 j = false := by simp [benign, he, hnet]
    refine ⟨⟨j, c1, e, hjk, hj, he, hnet, hben1, by rw [hres], ?_⟩, ?_, ?_⟩
    · rw [hres]
      simp [LoopState.afterCalls, LoopState.init]
    · intro honly
      rcases Nat.lt_or_ge j k with hlt | hge
      · obtain ⟨d1, hd1⟩ := honly j e hlt he hnet
        exact ⟨c1.String, d1, by rw [hres, hd1]⟩
      · have hjeq : j = k := by omega
        subst hjeq
        rw [hmis 0] at he
        exact ⟨c1.String, d, by rw [hres, ← Option.some.inj he]⟩
    · intro hall
      have hjeq : j = k := by
        rcases Nat.lt_or_ge j k with hlt | hge
        · have := hall j hlt
          rw [hjbad] at this
          exact absurd this (by simp)
        · omega
      subst hjeq
      rw [hmis 0] at he
      rw [hk] at hj
      rw [hres, ← Option.some.inj he, ← Option.some.inj hj]

/-- Witness of C10 as the code has it: two remote peers, the first
unreachable, the second mismatching in every pass. -/
theorem verifyServerSystemConfig_mismatch_terminates_witness :
    2 ≤ (newBootstrapRESTClients topologyTwoPeers).length ∧
    (∀ r, offlineThenMismatch r 1 = some (.diff platformMismatch)) ∧
    (verifyServerSystemConfig offlineThenMismatch neverDone topologyTwoPeers 1).1 =
      some (.incorrectConfiguration (newBootstrapRESTClient hostC).String
        (.diff platformMismatch)) :=
  ⟨by decide, fun _ => rfl,
    (verifyServerSystemConfig_mismatch_terminates offlineThenMismatch neverDone
      topologyTwoPeers 1 1 (newBootstrapRESTClient hostC) platformMismatch (by decide)
      (by decide) (fun _ => rfl) (Nat.le_refl 1)).2.2
      (fun i hi => by
        have hi0 : i = 0 := by omega
        subst hi0
        decide)⟩

/-! ## Rounds of the loop -/

theorem verifyLoop_done (verify : Nat → Nat → Option VerifyError) (ctxDone : Nat → Bool)
    (clnts : List bootstrapRESTClient) (fuel : Nat) (st : LoopState)
    (h : ¬ st.onlineServers < clnts.length / 2) :
    verifyLoop verify ctxDone clnts fuel st = (some .nil, st) := by
  cases fuel <;> simp [verifyLoop, h]

theorem verifyPass_complete (verify : Nat → Nat → Option VerifyError) (round : Nat)
    (cl : List bootstrapRESTClient) (idx : Nat) (st : LoopState)
    (hben : ∀ i, i < cl.length → benign verify round (idx + i) = true) :
    verifyPass verify round cl idx st =
      (none, st.afterCalls round idx cl.length (offlineIn verify round cl idx)
        (onlineIn verify round idx cl.length)) := by
  rcases verifyPass_spec verify round cl idx st with ⟨-, hrun⟩ | ⟨k, c, e, hk, he, hnet, -, -⟩
  · exact hrun
  · have hlt : k < cl.length := (List.getElem?_eq_some.1 hk).1
    have := hben k hlt
    simp [benign, he, hnet] at this

/-- One turn of the loop whose pass runs to its end: the `select` comes
first, the guard is looked at again only after the `default` branch. -/
theorem verifyLoop_step (verify : Nat → Nat → Option VerifyError) (ctxDone : Nat → Bool)
    (clnts : List bootstrapRESTClient) (fuel : Nat) (st : LoopState)
    (hguard : st.onlineServers < clnts.length / 2)
    (hben : ∀ i, i < clnts.length → benign verify st.round i = true) :
    verifyLoop verify ctxDone clnts (fuel + 1) st =
      if ctxDone st.round then (some .ctxErr, st.afterFullPass verify clnts)
      else verifyLoop verify ctxDone clnts fuel (afterPass clnts (st.afterFullPass verify clnts)) := by
  have hrun := verifyPass_complete verify st.round clnts 0 st (by simpa using hben)
  simp only [verifyLoop, hguard, if_true, hrun]
  rfl

theorem afterPass_stateAtPass (verify : Nat → Nat → Option VerifyError)
    (clnts : List bootstrapRESTClient) (n : Nat) :
    afterPass clnts ((stateAtPass verify clnts n).afterFullPass verify clnts) =
      stateAtPass verify clnts (n + 1) := by
  by_cases h5 : (n + 1) % 5 = 0
  · have h4 : n % 5 + 1 ≥ 5 := by omega
    simp [afterPass, LoopState.afterFullPass, stateAtPass, tallyAfter, tracePrefix,
      roundEvents, h5, h4]
  · have h4 : ¬ (n % 5 + 1 ≥ 5) := by omega
    have h6 : (n + 1) % 5 = n % 5 + 1 := by omega
    simp [afterPass, LoopState.afterFullPass, stateAtPass, tallyAfter, tracePrefix,
      roundEvents, h5, h4, h6]

theorem verifyLoop_round (verify : Nat → Nat → Option VerifyError) (ctxDone : Nat → Bool)
    (clnts : List bootstrapRESTClient) (fuel n : Nat)
    (h : CompleteRound verify ctxDone clnts n) :
    verifyLoop verify ctxDone clnts (fuel + 1) (stateAtPass verify clnts n) =
      verifyLoop verify ctxDone clnts fuel (stateAtPass verify clnts (n + 1)) := by
  obtain ⟨hguard, hben, hctx⟩ := h
  rw [verifyLoop_step verify ctxDone clnts fuel (stateAtPass verify clnts n) hguard hben,
    afterPass_stateAtPass]
  simp [stateAtPass, hctx]

theorem verifyLoop_rounds (verify : Nat → Nat → Option VerifyError) (ctxDone : Nat → Bool)
    (clnts : List bootstrapRESTClient) (n : Nat) :
    ∀ fuel, (∀ r, r < n → CompleteRound verify ctxDone clnts r) →
      verifyLoop verify ctxDone clnts (n + fuel) LoopState.init =
        verifyLoop verify ctxDone clnts fuel (stateAtPass verify clnts n) := by
  induction n with
  | zero => intro fuel _; simp only [Nat.zero_add]; rfl
  | succ n ih =>
    intro fuel h
    rw [show n + 1 + fuel = n + (fuel + 1) by omega,
      ih (fuel + 1) (fun r hr => h r (by omega)),
      verifyLoop_round verify ctxDone clnts fuel n (h n (Nat.lt_succ_self n))]

/-- C11. With zero remote peers `verifyServerSystemConfig` returns `nil` and
does nothing else: no Verify call, no sleep, no `select` on `ctx.Done()`, no
log (the trace is empty and the state is the initial one), whatever the
schedule and the cancellation signal are. -/
theorem verifyServerSystemConfig_no_peers (verify : Nat → Nat → Option VerifyError)
    (ctxDone : Nat → Bool) (endpointServerSets : EndpointServerSets) (fuel : Nat)
    (h : newBootstrapRESTClients endpointServerSets = []) :
    verifyServerSystemConfig verify ctxDone endpointServerSets fuel =
      (some .nil, LoopState.init) ∧
    (verifyServerSystemConfig verify ctxDone endpointServerSets fuel).2.trace = [] := by
  have hrun : verifyServerSystemConfig verify ctxDone endpointServerSets fuel =
      (some .nil, LoopState.init) := by
    unfold verifyServerSystemConfig
    rw [h]
    exact verifyLoop_done verify ctxDone [] fuel LoopState.init (by simp)
  exact ⟨hrun, by rw [hrun]; rfl⟩

/-- Witness of C11: a single-node deployment, with a schedule in which every
call would fail and a context that is cancelled from the start. -/
theorem verifyServerSystemConfig_no_peers_witness :
    newBootstrapRESTClients topologyLocalOnly = [] ∧
    verifyServerSystemConfig alwaysMismatch alwaysDone topologyLocalOnly 0 =
      (some .nil, LoopState.init) :=
  ⟨by decide,
    (verifyServerSystemConfig_no_peers alwaysMismatch alwaysDone topologyLocalOnly 0
      (by decide)).1⟩

theorem onlineIn_ge_of_good (verify : Nat → Nat → Option VerifyError) (round len : Nat)
    (good : List Nat) (hnd : good.Nodup) (hpos : ∀ k ∈ good, k < len)
    (hok : ∀ k ∈ good, verify round k = none) :
    good.length ≤ onlineIn verify round 0 len := by
  have hsub : good ⊆ (List.range' 0 len).filter (fun i => (verify round i).isNone) := by
    intro k hk
    simp only [List.mem_filter, List.mem_range'_1]
    exact ⟨⟨Nat.zero_le k, by simpa using hpos k hk⟩, by simp [hok k hk]⟩
  exact (hnd.subperm hsub).length_le

/-- C12. When at least `ceil(N/2)` of the `N` remote peers return `nil` on
every Verify call, no call returns a non-network error and the context is
never cancelled, `verifyServerSystemConfig` returns `nil` as soon as one pass
is allowed: with `N/2 = 0` it makes no pass, otherwise it makes exactly the
Verify calls of pass 0, the `select` and one sleep, and stops there. -/
theorem verifyServerSystemConfig_quorum_in_one_pass
    (verify : Nat → Nat → Option VerifyError) (ctxDone : Nat → Bool)
    (endpointServerSets : EndpointServerSets) (fuel : Nat) (good : List Nat)
    (hnd : good.Nodup)
    (hpos : ∀ k ∈ good, k < (newBootstrapRESTClients endpointServerSets).length)
    (hhalf : ((newBootstrapRESTClients endpointServerSets).length + 1) / 2 ≤ good.length)
    (hok : ∀ r, ∀ k ∈ good, verify r k = none)
    (hben : ∀ r k, benign verify r k = true) (hctx : ∀ r, ctxDone r = false)
    (hfuel : 1 ≤ fuel) :
    (verifyServerSystemConfig verify ctxDone endpointServerSets fuel).1 = some .nil ∧
    (verifyServerSystemConfig verify ctxDone endpointServerSets fuel).2.round ≤ 1 ∧
    (verifyServerSystemConfig verify ctxDone endpointServerSets fuel).2.trace =
      (if (newBootstrapRESTClients endpointServerSets).length / 2 = 0 then []
       else verifyEvents 0 0 (newBootstrapRESTClients endpointServerSets).length ++
         [Event.ctxDone 0, Event.sleep]) := by
  obtain ⟨fuel, rfl⟩ : ∃ n, fuel = n + 1 := ⟨fuel - 1, by omega⟩
  unfold verifyServerSystemConfig
  by_cases hq : (newBootstrapRESTClients endpointServerSets).length / 2 = 0
  · rw [verifyLoop_done verify ctxDone _ _ LoopState.init (by simp [LoopState.init, hq])]
    simp [LoopState.init, hq]
  · have h0 : CompleteRound verify ctxDone (newBootstrapRESTClients endpointServerSets) 0 :=
      ⟨by simp only [tallyAfter]; omega, fun i _ => hben 0 i, hctx 0⟩
    have hrounds := verifyLoop_rounds verify ctxDone
      (newBootstrapRESTClients endpointServerSets) 1 fuel
      (fun r hr => by
        have hr0 : r = 0 := by omega
        subst hr0
        exact h0)
    have hge := onlineIn_ge_of_good verify 0
      (newBootstrapRESTClients endpointServerSets).length good hnd hpos (hok 0)
    rw [show fuel + 1 = 1 + fuel by omega, hrounds,
      verifyLoop_done verify ctxDone _ _ _
        (by simp only [stateAtPass, tallyAfter]; omega)]
    simp [stateAtPass, tracePrefix, roundEvents, hq]

/-- Witness of C12: two remote peers, both online. -/
theorem verifyServerSystemConfig_quorum_in_one_pass_witness :
    (verifyServerSystemConfig allOnline neverDone topologyTwoPeers 1).1 = some .nil ∧
    (verifyServerSystemConfig allOnline neverDone topologyTwoPeers 1).2.trace =
      [Event.verify 0 0, Event.verify 0 1, Event.ctxDone 0, Event.sleep] :=
  have h := verifyServerSystemConfig_quorum_in_one_pass allOnline neverDone topologyTwoPeers 1
    [0, 1] (by decide) (by decide) (by decide) (fun _ _ _ => rfl) (fun _ _ => rfl)
    (fun _ => rfl) (Nat.le_refl 1)
  ⟨h.1, by decide⟩

/-- C13 as stated fails: with both of two remote peers verified in pass 0 the
tally is 2, the threshold `len(clnts)/2` is 1, and with the context cancelled
at that round boundary the loop returns the error of the context, not
`nil`. -/
theorem verifyServerSystemConfig_cancelled_at_quorum :
    (newBootstrapRESTClients topologyTwoPeers).length / 2 = 1 ∧
    ∀ fuel,
      (verifyServerSystemConfig allOnline alwaysDone topologyTwoPeers (fuel + 1)).1 =
        some .ctxErr ∧
      (verifyServerSystemConfig allOnline alwaysDone topologyTwoPeers (fuel + 1)).2.onlineServers
        = 2 := by
  refine ⟨by decide, ?_⟩
  intro fuel
  exact ⟨rfl, rfl⟩

/-- C13, as the code has it. After a full pass `n` without a non-network
error the `select` on `ctx.Done()` comes first: if the context is cancelled
the loop returns the error of the context, whatever the tally is; if it is
not, the loop sleeps and updates its counters, and only then is the
termination condition looked at: with the tally at `len(clnts)/2` or more the
loop returns `nil`, in the state in which pass `n + 1` would start. -/
theorem verifyServerSystemConfig_select_before_guard
    (verify : Nat → Nat → Option VerifyError) (ctxDone : Nat → Bool)
    (endpointServerSets : EndpointServerSets) (fuel n : Nat)
    (hprev : ∀ r, r < n →
      CompleteRound verify ctxDone (newBootstrapRESTClients endpointServerSets) r)
    (hguard : tallyAfter verify (newBootstrapRESTClients endpointServerSets).length n <
      (newBootstrapRESTClients endpointServerSets).length / 2)
    (hben : ∀ i, i < (newBootstrapRESTClients endpointServerSets).length →
      benign verify n i = true) :
    (ctxDone n = true →
      verifyServerSystemConfig verify ctxDone endpointServerSets (n + (fuel + 1)) =
        (some .ctxErr,
          (stateAtPass verify (newBootstrapRESTClients endpointServerSets) n).afterFullPass
            verify (newBootstrapRESTClients endpointServerSets))) ∧
    (ctxDone n = false →
      (newBootstrapRESTClients endpointServerSets).length / 2 ≤
        tallyAfter verify (newBootstrapRESTClients endpointServerSets).length (n + 1) →
      verifyServerSystemConfig verify ctxDone endpointServerSets (n + (fuel + 1)) =
        (some .nil, stateAtPass verify (newBootstrapRESTClients endpointServerSets) (n + 1)) ∧
      ∃ pre, (stateAtPass verify (newBootstrapRESTClients endpointServerSets) (n + 1)).trace =
        pre ++ [Event.ctxDone n, Event.sleep] ++
          (if (n + 1) % 5 = 0 then
            [Event.logWaiting ((newBootstrapRESTClients endpointServerSets).length / 2),
              Event.logOffline
                (offlineIn verify n (newBootstrapRESTClients endpointServerSets) 0)]
          else [])) := by
  unfold verifyServerSystemConfig
  rw [verifyLoop_rounds verify ctxDone _ n (fuel + 1) hprev]
  constructor
  · intro hc
    rw [verifyLoop_step verify ctxDone _ fuel _ hguard hben]
    simp [stateAtPass, hc]
  · intro hc hq
    rw [verifyLoop_round verify ctxDone _ fuel n ⟨hguard, hben, hc⟩,
      verifyLoop_done verify ctxDone _ _ _ (by simp only [stateAtPass]; omega)]
    refine ⟨rfl, tracePrefix verify (newBootstrapRESTClients endpointServerSets) n ++
      verifyEvents n 0 (newBootstrapRESTClients endpointServerSets).length, ?_⟩
    simp [stateAtPass, tracePrefix, roundEvents]

/-- Witness of C13 as the code has it: two remote peers, both online, and
the context cancelled at the boundary of pass 0. -/
theorem verifyServerSystemConfig_select_before_guard_witness :
    tallyAfter allOnline (newBootstrapRESTClients topologyTwoPeers).length 0 <
      (newBootstrapRESTClients topologyTwoPeers).length / 2 ∧
    (verifyServerSystemConfig allOnline alwaysDone topologyTwoPeers 1).1 = some .ctxErr :=
  ⟨by decide,
    by
      have h := (verifyServerSystemConfig_select_before_guard allOnline alwaysDone
        topologyTwoPeers 0 0 (fun r hr => absurd hr (Nat.not_lt_zero r)) (by decide)
        (fun _ _ => rfl)).1 rfl
      rw [h]⟩

/-! ## Cancellation -/

theorem notCancelled_append {ctxDone : Nat → Bool} {t u : List Event}
    (ht : NotCancelled ctxDone t) (hu : NotCancelled ctxDone u) :
    NotCancelled ctxDone (t ++ u) := by
  intro r hmem
  rcases List.mem_append.1 hmem with h | h
  · exact ht r h
  · exact hu r h

theorem notCancelled_verifyEvents (ctxDone : Nat → Bool) (round idx n : Nat) :
    NotCancelled ctxDone (verifyEvents round idx n) := by
  intro r hmem
  obtain ⟨i, -, heq⟩ := mem_verifyEvents hmem
  cases heq

theorem afterPass_notCancelled {ctxDone : Nat → Bool} (clnts : List bootstrapRESTClient)
    (st : LoopState) (h : NotCancelled ctxDone st.trace) :
    NotCancelled ctxDone (afterPass clnts st).trace := by
  intro r hmem
  apply h r
  simp only [afterPass] at hmem
  split at hmem <;> simpa using hmem

/-- A run either ends at the first `select` that finds the context cancelled,
with the error of the context, or it meets no such `select` and does not
return the error of the context. -/
theorem verifyLoop_ctx_spec (verify : Nat → Nat → Option VerifyError) (ctxDone : Nat → Bool)
    (clnts : List bootstrapRESTClient) :
    ∀ (fuel : Nat) (st : LoopState), NotCancelled ctxDone st.trace →
      ((verifyLoop verify ctxDone clnts fuel st).1 = some .ctxErr ∧
        ∃ pre r, (verifyLoop verify ctxDone clnts fuel st).2.trace =
            pre ++ [Event.ctxDone r] ∧
          ctxDone r = true ∧ NotCancelled ctxDone pre) ∨
      ((verifyLoop verify ctxDone clnts fuel st).1 ≠ some .ctxErr ∧
        NotCancelled ctxDone (verifyLoop verify ctxDone clnts fuel st).2.trace) := by
  intro fuel
  induction fuel with
  | zero =>
    intro st hst
    right
    simp only [verifyLoop]
    split <;> exact ⟨by simp, hst⟩
  | succ fuel ih =>
    intro st hst
    by_cases hguard : st.onlineServers < clnts.length / 2
    · rcases verifyPass_spec verify st.round clnts 0 st with
        ⟨hben, -⟩ | ⟨k, c, e, -, -, -, -, hrun⟩
      · have hben0 : ∀ i, i < clnts.length → benign verify st.round i = true := by
          simpa using hben
        have hst1 : NotCancelled ctxDone
            (st.trace ++ verifyEvents st.round 0 clnts.length) :=
          notCancelled_append hst (notCancelled_verifyEvents ctxDone _ _ _)
        rw [verifyLoop_step verify ctxDone clnts fuel st hguard hben0]
        by_cases hdone : ctxDone st.round = true
        · left
          simp only [hdone, if_true]
          exact ⟨trivial, st.trace ++ verifyEvents st.round 0 clnts.length, st.round, rfl,
            hdone, hst1⟩
        · simp only [hdone]
          apply ih
          apply afterPass_notCancelled
          intro r hmem
          simp only [LoopState.afterFullPass, List.mem_append, List.mem_singleton,
            Event.ctxDone.injEq] at hmem
          rcases hmem with hmem | hmem
          · exact hst1 r (List.mem_append.2 hmem)
          · rw [hmem]
            simpa using hdone
      · right
        simp only [verifyLoop, hguard, if_true, hrun]
        exact ⟨by simp, notCancelled_append hst (notCancelled_verifyEvents ctxDone _ _ _)⟩
    · right
      rw [verifyLoop_done verify ctxDone clnts _ st hguard]
      exact ⟨by simp, hst⟩

/-- C14. When the `select` after pass `r` finds the context cancelled, the
loop returns `ctx.Err()` as it is, and that `select` is the last event of the
run: no Verify call, sleep or log follows it, no new round is started, and
no earlier `select` had found the context cancelled.  The `select` does take
place: when pass `n` is started with the tally below `len(clnts)/2` and runs
to its end, and the context is cancelled at its boundary, the run consists of
the rounds before `n`, the Verify calls of pass `n` and that `select`, and
the result is `ctx.Err()`. -/
theorem verifyServerSystemConfig_cancelled (verify : Nat → Nat → Option VerifyError)
    (ctxDone : Nat → Bool) (endpointServerSets : EndpointServerSets) (fuel r : Nat)
    (hobs : Event.ctxDone r ∈
      (verifyServerSystemConfig verify ctxDone endpointServerSets fuel).2.trace)
    (hc : ctxDone r = true) :
    (verifyServerSystemConfig verify ctxDone endpointServerSets fuel).1 = some .ctxErr ∧
    (∃ pre, (verifyServerSystemConfig verify ctxDone endpointServerSets fuel).2.trace =
        pre ++ [Event.ctxDone r] ∧ NotCancelled ctxDone pre) ∧
    ∀ n fuel1,
      (∀ r1, r1 < n →
        CompleteRound verify ctxDone (newBootstrapRESTClients endpointServerSets) r1) →
      tallyAfter verify (newBootstrapRESTClients endpointServerSets).length n <
        (newBootstrapRESTClients endpointServerSets).length / 2 →
      (∀ i, i < (newBootstrapRESTClients endpointServerSets).length →
        benign verify n i = true) →
      ctxDone n = true →
      (verifyServerSystemConfig verify ctxDone endpointServerSets (n + (fuel1 + 1))).1 =
        some .ctxErr ∧
      (verifyServerSystemConfig verify ctxDone endpointServerSets (n + (fuel1 + 1))).2.trace =
        tracePrefix verify (newBootstrapRESTClients endpointServerSets) n ++
          verifyEvents n 0 (newBootstrapRESTClients endpointServerSets).length ++
          [Event.ctxDone n] := by
  have hforward : ∀ n fuel1,
      (∀ r1, r1 < n →
        CompleteRound verify ctxDone (newBootstrapRESTClients endpointServerSets) r1) →
      tallyAfter verify (newBootstrapRESTClients endpointServerSets).length n <
        (newBootstrapRESTClients endpointServerSets).length / 2 →
      (∀ i, i < (newBootstrapRESTClients endpointServerSets).length →
        benign verify n i = true) →
      ctxDone n = true →
      (verifyServerSystemConfig verify ctxDone endpointServerSets (n + (fuel1 + 1))).1 =
        some .ctxErr ∧
      (verifyServerSystemConfig verify ctxDone endpointServerSets (n + (fuel1 + 1))).2.trace =
        tracePrefix verify (newBootstrapRESTClients endpointServerSets) n ++
          verifyEvents n 0 (newBootstrapRESTClients endpointServerSets).length ++
          [Event.ctxDone n] := by
    intro n fuel1 hprev hguard hben hcn
    unfold verifyServerSystemConfig
    rw [verifyLoop_rounds verify ctxDone _ n (fuel1 + 1) hprev,
      verifyLoop_step verify ctxDone _ fuel1 _ hguard hben]
    simp [stateAtPass, hcn, LoopState.afterFullPass]
  refine (fun h => ⟨h.1, h.2, hforward⟩ :
    ((verifyServerSystemConfig verify ctxDone endpointServerSets fuel).1 = some .ctxErr ∧
    ∃ pre, (verifyServerSystemConfig verify ctxDone endpointServerSets fuel).2.trace =
        pre ++ [Event.ctxDone r] ∧ NotCancelled ctxDone pre) → _) ?_
  unfold verifyServerSystemConfig at hobs ⊢
  have hinit : NotCancelled ctxDone LoopState.init.trace := by
    intro r1 hmem
    simp [LoopState.init] at hmem
  rcases verifyLoop_ctx_spec verify ctxDone (newBootstrapRESTClients endpointServerSets) fuel
      LoopState.init hinit with ⟨hres, pre, r1, htrace, -, hpre⟩ | ⟨-, hall⟩
  · rw [htrace] at hobs
    rcases List.mem_append.1 hobs with hmem | hmem
    · rw [hpre r hmem] at hc
      exact absurd hc (by simp)
    · simp only [List.mem_singleton, Event.ctxDone.injEq] at hmem
      subst hmem
      exact ⟨hres, pre, htrace, hpre⟩
  · rw [hall r hobs] at hc
    exact absurd hc (by simp)

/-- Witness of C14: two unreachable peers, the context cancelled during the
second pass; the tally is 0, below the threshold 1. -/
theorem verifyServerSystemConfig_cancelled_witness :
    Event.ctxDone 1 ∈
      (verifyServerSystemConfig allOffline doneFromSecond topologyTwoPeers 5).2.trace ∧
    (verifyServerSystemConfig allOffline doneFromSecond topologyTwoPeers 5).2.onlineServers <
      (newBootstrapRESTClients topologyTwoPeers).length / 2 ∧
    (verifyServerSystemConfig allOffline doneFromSecond topologyTwoPeers 5).1 =
      some .ctxErr :=
  ⟨by decide, by decide,
    (verifyServerSystemConfig_cancelled allOffline doneFromSecond topologyTwoPeers 5 1
      (by decide) rfl).1⟩

/-! ## Network errors -/

/-- C15. A Verify call that returns a network error does not end the pass: it
records the `String()` of that client in the offline list, leaves the tally
alone, and the pass goes on with the next client.  The result of the loop is
`nil`, the error of the context, or the wrapping of an error `e` that some
Verify call returned and that is not a network error; with a schedule whose
errors are all network errors the loop returns no configuration error.  A
pass in which every call returns `nil` or a network error runs over all
clients and leaves the offline list extended by the `String()` of the clients
that returned a network error, in client order, and the tally raised by the
number of calls that returned `nil`. -/
theorem verifyServerSystemConfig_network_error_contained
    (verify : Nat → Nat → Option VerifyError) (ctxDone : Nat → Bool)
    (endpointServerSets : EndpointServerSets) (fuel : Nat) :
    (∀ (round idx : Nat) (clnt : bootstrapRESTClient) (rest : List bootstrapRESTClient)
        (st : LoopState) (e : VerifyError),
      verify round idx = some e → isNetworkError e = true →
      verifyPass verify round (clnt :: rest) idx st =
        verifyPass verify round rest (idx + 1)
          { st with
            trace := st.trace ++ [Event.verify round idx],
            offlineEndpoints := st.offlineEndpoints ++ [clnt.String] }) ∧
    (∀ res, (verifyServerSystemConfig verify ctxDone endpointServerSets fuel).1 = some res →
      res = .nil ∨ res = .ctxErr ∨
      ∃ r k c e, (newBootstrapRESTClients endpointServerSets)[k]? = some c ∧
        verify r k = some e ∧ isNetworkError e = false ∧
        res = .incorrectConfiguration c.String e) ∧
    ((∀ r k e, verify r k = some e → isNetworkError e = true) →
      ∀ name e, (verifyServerSystemConfig verify ctxDone endpointServerSets fuel).1 ≠
        some (.incorrectConfiguration name e)) ∧
    (∀ (round idx : Nat) (cl : List bootstrapRESTClient) (st : LoopState),
      (∀ i, i < cl.length → benign verify round (idx + i) = true) →
      verifyPass verify round cl idx st =
        (none,
          { st with
            trace := st.trace ++ verifyEvents round idx cl.length,
            offlineEndpoints := st.offlineEndpoints ++ offlineIn verify round cl idx,
            onlineServers := st.onlineServers + onlineIn verify round idx cl.length })) := by
  have hspec := verifyLoop_spec verify ctxDone (newBootstrapRESTClients endpointServerSets)
    fuel LoopState.init (allBenign_nil verify) rfl
  refine ⟨?_, ?_, ?_, fun round idx cl st hben =>
    verifyPass_complete verify round cl idx st hben⟩
  · intro round idx clnt rest st e hv hnet
    simp [verifyPass, hv, hnet]
  · intro res hres
    unfold verifyServerSystemConfig at hres
    rcases hspec with ⟨pre, k, c, e, hr, hk, he, hnet, -, -, -⟩ | ⟨hno, -⟩
    · rw [hr] at hres
      right; right
      exact ⟨_, k, c, e, hk, he, hnet, (Option.some.inj hres).symm⟩
    · cases res with
      | nil => left; rfl
      | ctxErr => right; left; rfl
      | incorrectConfiguration name e => exact absurd hres (hno name e)
  · intro hall name e
    unfold verifyServerSystemConfig
    rcases hspec with ⟨pre, k, c, e1, -, -, he, hnet, -, -, -⟩ | ⟨hno, -⟩
    · rw [hall _ _ _ he] at hnet
      exact absurd hnet (by simp)
    · exact hno name e

/-! ## `Verify` -/

/-- C16. `Verify` returns `nil` without a transport call when the object layer
is initialized; otherwise it issues one call and returns the error of the
transport unchanged when the call fails, the error of the decoder when the
body does not decode, and otherwise what `srcCfg.Diff(recvCfg)` gives, with
the local configuration as receiver and the decoded one as argument: `nil`
for `nil`, the discrepancy for a discrepancy (and the panic of `Diff` when
`Diff` panics); it never issues more than one call. -/
theorem Verify_outcomes (client : bootstrapRESTClient)
    (call : bootstrapRESTClient → Except (Bool × String) String)
    (decode : String → Except String ServerSystemConfig) (srcCfg : ServerSystemConfig) :
    client.Verify true call decode srcCfg = ⟨.ok none, 0⟩ ∧
    (∀ network msg, call client = .error (network, msg) →
      client.Verify false call decode srcCfg = ⟨.ok (some (.call network msg)), 1⟩) ∧
    (∀ respBody msg, call client = .ok respBody → decode respBody = .error msg →
      client.Verify false call decode srcCfg = ⟨.ok (some (.decode msg)), 1⟩) ∧
    (∀ respBody recvCfg, call client = .ok respBody → decode respBody = .ok recvCfg →
      client.Verify false call decode srcCfg =
        ⟨(srcCfg.Diff recvCfg).map (Option.map VerifyError.diff), 1⟩) ∧
    (∀ ready, (client.Verify ready call decode srcCfg).calls ≤ 1) ∧
    (newBootstrapRESTClient hostB).Verify false sampleCall sampleDecode cfgOneSet =
      ⟨.ok (some (.diff (.endpointCount 1 2))), 1⟩ := by
  refine ⟨rfl, ?_, ?_, ?_, ?_, rfl⟩
  · intro network msg hcall
    simp [bootstrapRESTClient.Verify, hcall]
  · intro respBody msg hcall hdec
    simp [bootstrapRESTClient.Verify, hcall, hdec]
  · intro respBody recvCfg hcall hdec
    simp only [bootstrapRESTClient.Verify, hcall, hdec]
    cases hd : srcCfg.Diff recvCfg with
    | error p => rfl
    | ok o => cases o <;> rfl
  · intro ready
    unfold bootstrapRESTClient.Verify
    split
    · simp
    · split
      · simp
      · split
        · simp
        · split <;> simp

/-! ## The tally and the round counter -/

theorem verifyPass_tally_mono (verify : Nat → Nat → Option VerifyError) (round : Nat)
    (cl : List bootstrapRESTClient) (idx : Nat) (st : LoopState) :
    st.onlineServers ≤ (verifyPass verify round cl idx st).2.onlineServers := by
  rcases verifyPass_spec verify round cl idx st with ⟨-, hrun⟩ | ⟨k, c, e, -, -, -, -, hrun⟩ <;>
    rw [hrun] <;> simp [LoopState.afterCalls]

theorem afterPass_onlineServers (clnts : List bootstrapRESTClient) (st : LoopState) :
    (afterPass clnts st).onlineServers = st.onlineServers := by
  simp only [afterPass]
  split <;> rfl

theorem verifyLoop_tally_mono (verify : Nat → Nat → Option VerifyError)
    (ctxDone : Nat → Bool) (clnts : List bootstrapRESTClient) :
    ∀ (fuel : Nat) (st : LoopState),
      st.onlineServers ≤ (verifyLoop verify ctxDone clnts fuel st).2.onlineServers := by
  intro fuel
  induction fuel with
  | zero =>
    intro st
    simp only [verifyLoop]
    split <;> exact Nat.le_refl _
  | succ fuel ih =>
    intro st
    by_cases hguard : st.onlineServers < clnts.length / 2
    · have hp := verifyPass_tally_mono verify st.round clnts 0 st
      simp only [verifyLoop, hguard, if_true]
      split
      · next err st1 heq =>
        rw [heq] at hp
        exact hp
      · next st1 heq =>
        rw [heq] at hp
        split
        · exact hp
        · refine Nat.le_trans hp (Nat.le_trans ?_ (ih _))
          rw [afterPass_onlineServers]
    · rw [verifyLoop_done verify ctxDone clnts _ st hguard]

/-- C17. The tally is never reset or decremented: the statements after a
pass leave it as it is and empty the offline list, a pass can only raise it,
and so can the whole loop.  With four remote peers of which only the first
ever returns `nil`, the loop returns `nil` after two passes with a tally of 2:
the same peer counted once per pass. -/
theorem verifyServerSystemConfig_tally_accumulates :
    (∀ (clnts : List bootstrapRESTClient) (st : LoopState),
      (afterPass clnts st).onlineServers = st.onlineServers ∧
      (afterPass clnts st).offlineEndpoints = []) ∧
    (∀ (verify : Nat → Nat → Option VerifyError) (round : Nat)
        (cl : List bootstrapRESTClient) (idx : Nat) (st : LoopState),
      st.onlineServers ≤ (verifyPass verify round cl idx st).2.onlineServers) ∧
    (∀ (verify : Nat → Nat → Option VerifyError) (ctxDone : Nat → Bool)
        (clnts : List bootstrapRESTClient) (fuel : Nat) (st : LoopState),
      st.onlineServers ≤ (verifyLoop verify ctxDone clnts fuel st).2.onlineServers) ∧
    (newBootstrapRESTClients topologyFourPeers).length = 4 ∧
    (∀ r k, onlyFirstOnline r k = none ↔ k = 0) ∧
    ∀ fuel, 2 ≤ fuel →
      (verifyServerSystemConfig onlyFirstOnline neverDone topologyFourPeers fuel).1 =
        some .nil ∧
      (verifyServerSystemConfig onlyFirstOnline neverDone topologyFourPeers fuel).2.onlineServers
        = 2 ∧
      (verifyServerSystemConfig onlyFirstOnline neverDone topologyFourPeers fuel).2.round = 2 := by
  refine ⟨fun clnts st => ⟨afterPass_onlineServers clnts st, rfl⟩, verifyPass_tally_mono, verifyLoop_tally_mono,
    by decide, ?_, ?_⟩
  · intro r k
    by_cases hk : k = 0 <;> simp [onlyFirstOnline, hk]
  · intro fuel hfuel
    obtain ⟨fuel, rfl⟩ : ∃ n, fuel = n + 2 := ⟨fuel - 2, by omega⟩
    cases fuel <;> exact ⟨rfl, rfl, rfl⟩

theorem isCallOrSelect_verifyEvents {round idx n : Nat} {ev : Event}
    (h : ev ∈ verifyEvents round idx n) : ev.isCallOrSelect = true := by
  obtain ⟨i, -, heq⟩ := mem_verifyEvents h
  rw [heq]
  rfl

theorem verifyLoop_trace_shape (verify : Nat → Nat → Option VerifyError)
    (ctxDone : Nat → Bool) (clnts : List bootstrapRESTClient) :
    ∀ (fuel n : Nat), (∀ r, r < n → CompleteRound verify ctxDone clnts r) →
      ∃ m tail,
        (verifyLoop verify ctxDone clnts fuel (stateAtPass verify clnts n)).2.trace =
          tracePrefix verify clnts m ++ tail ∧
        (∀ ev ∈ tail, ev.isCallOrSelect = true) ∧
        (∀ r, r < m → CompleteRound verify ctxDone clnts r) := by
  intro fuel
  induction fuel with
  | zero =>
    intro n hn
    refine ⟨n, [], ?_, by simp, hn⟩
    simp only [verifyLoop]
    split <;> simp [stateAtPass]
  | succ fuel ih =>
    intro n hn
    by_cases hguard : (stateAtPass verify clnts n).onlineServers < clnts.length / 2
    · rcases verifyPass_spec verify n clnts 0 (stateAtPass verify clnts n) with
        ⟨hben, -⟩ | ⟨k, c, e, -, -, -, -, hrun⟩
      · have hben0 : ∀ i, i < clnts.length → benign verify n i = true := by
          simpa using hben
        by_cases hdone : ctxDone n = true
        · refine ⟨n, verifyEvents n 0 clnts.length ++ [Event.ctxDone n], ?_, ?_, hn⟩
          · rw [verifyLoop_step verify ctxDone clnts fuel _ hguard hben0]
            simp [stateAtPass, hdone, LoopState.afterFullPass]
          · intro ev hev
            rcases List.mem_append.1 hev with h | h
            · exact isCallOrSelect_verifyEvents h
            · simp only [List.mem_singleton] at h
              rw [h]
              rfl
        · have hround : CompleteRound verify ctxDone clnts n :=
            ⟨hguard, hben0, by simpa using hdone⟩
          rw [verifyLoop_round verify ctxDone clnts fuel n hround]
          exact ih (n + 1) (fun r hr => by
            rcases Nat.lt_succ_iff_lt_or_eq.1 hr with h | h
            · exact hn r h
            · rw [h]; exact hround)
      · refine ⟨n, verifyEvents n 0 (k + 1), ?_, fun ev hev => isCallOrSelect_verifyEvents hev,
          hn⟩
        have hround : (stateAtPass verify clnts n).round = n := rfl
        simp only [verifyLoop, hguard, if_true, hround, hrun]
        simp [LoopState.afterCalls, stateAtPass]
    · refine ⟨n, [], ?_, by simp, hn⟩
      rw [verifyLoop_done verify ctxDone clnts _ _ hguard]
      simp [stateAtPass]

/-- C18. Pass `n` starts in the state `stateAtPass n`: the round counter is
`n % 5`, so between 0 and 4, and the offline list is empty.  The events of a
run are those of its full, uncancelled rounds followed by Verify calls and at
most one `select` of a last round that is cut short; a full, uncancelled
round `n` contributes its Verify calls, the `select`, the sleep and, exactly
when `n + 1` is a multiple of 5, the two log lines, the second naming the
peers that returned a network error in round `n`, in client order. -/
theorem verifyServerSystemConfig_rounds_and_logs
    (verify : Nat → Nat → Option VerifyError) (ctxDone : Nat → Bool)
    (endpointServerSets : EndpointServerSets) :
    (∀ n fuel,
      (∀ r, r < n →
        CompleteRound verify ctxDone (newBootstrapRESTClients endpointServerSets) r) →
      verifyServerSystemConfig verify ctxDone endpointServerSets (n + fuel) =
        verifyLoop verify ctxDone (newBootstrapRESTClients endpointServerSets) fuel
          (stateAtPass verify (newBootstrapRESTClients endpointServerSets) n)) ∧
    (∀ n,
      (stateAtPass verify (newBootstrapRESTClients endpointServerSets) n).retries = n % 5 ∧
      (stateAtPass verify (newBootstrapRESTClients endpointServerSets) n).retries ≤ 4 ∧
      (stateAtPass verify (newBootstrapRESTClients endpointServerSets) n).offlineEndpoints
        = [] ∧
      (stateAtPass verify (newBootstrapRESTClients endpointServerSets) n).trace =
        tracePrefix verify (newBootstrapRESTClients endpointServerSets) n) ∧
    (∀ fuel, ∃ m tail,
      (verifyServerSystemConfig verify ctxDone endpointServerSets fuel).2.trace =
        tracePrefix verify (newBootstrapRESTClients endpointServerSets) m ++ tail ∧
      (∀ ev ∈ tail, ev.isCallOrSelect = true) ∧
      (∀ r, r < m →
        CompleteRound verify ctxDone (newBootstrapRESTClients endpointServerSets) r)) ∧
    (tracePrefix verify (newBootstrapRESTClients endpointServerSets) 0 = [] ∧
      ∀ n, tracePrefix verify (newBootstrapRESTClients endpointServerSets) (n + 1) =
        tracePrefix verify (newBootstrapRESTClients endpointServerSets) n ++
          verifyEvents n 0 (newBootstrapRESTClients endpointServerSets).length ++
          [Event.ctxDone n, Event.sleep] ++
          (if (n + 1) % 5 = 0 then
            [Event.logWaiting ((newBootstrapRESTClients endpointServerSets).length / 2),
              Event.logOffline
                (offlineIn verify n (newBootstrapRESTClients endpointServerSets) 0)]
          else [])) := by
  refine ⟨?_, ?_, ?_, rfl, ?_⟩
  · intro n fuel h
    exact verifyLoop_rounds verify ctxDone _ n fuel h
  · intro n
    refine ⟨rfl, ?_, rfl, rfl⟩
    simp only [stateAtPass]
    omega
  · intro fuel
    exact verifyLoop_trace_shape verify ctxDone _ fuel 0
      (fun r hr => absurd hr (Nat.not_lt_zero r))
  · intro n
    simp [tracePrefix, roundEvents]

/-! ## `Diff` on configurations of different shapes -/

/-- C19, the code at the failing inputs. Against the peer
`cfgOneSetExtraEmpty`, which has a second endpoint set, `Diff` returns `nil`
from `cfgOneSet` and panics in the other direction, whenever `NEndpoints()`
gives the two topologies the same number, as the number of endpoints does.
Against the peer `cfgOneSetLonger`, which has a third endpoint in its set,
`Diff` returns `nil` from `cfgOneSet` and panics in the other direction,
whenever `NEndpoints()` gives the two topologies the same number, as the
number of endpoint sets does. -/
theorem Diff_agreement_not_symmetric :
    (∀ count : EndpointServerSets → Int,
      count cfgOneSet.MinioEndpoints = count cfgOneSetExtraEmpty.MinioEndpoints →
      cfgOneSet.DiffWith count cfgOneSetExtraEmpty = .ok none ∧
      cfgOneSetExtraEmpty.DiffWith count cfgOneSet = .error (.indexOutOfRange 1 1)) ∧
    totalEndpoints cfgOneSet.MinioEndpoints =
      totalEndpoints cfgOneSetExtraEmpty.MinioEndpoints ∧
    cfgOneSet.DiffWith totalEndpoints cfgOneSetExtraEmpty = .ok none ∧
    cfgOneSetExtraEmpty.DiffWith totalEndpoints cfgOneSet = .error (.indexOutOfRange 1 1) ∧
    (∀ count : EndpointServerSets → Int,
      count cfgOneSet.MinioEndpoints = count cfgOneSetLonger.MinioEndpoints →
      cfgOneSet.DiffWith count cfgOneSetLonger = .ok none ∧
      cfgOneSetLonger.DiffWith count cfgOneSet = .error (.indexOutOfRange 2 2)) ∧
    cfgOneSet.Diff cfgOneSetLonger = .ok none ∧
    cfgOneSetLonger.Diff cfgOneSet = .error (.indexOutOfRange 2 2) ∧
    cfgOneSetLonger.Diff cfgOneSet ≠ .ok none := by
  refine ⟨?_, by decide, by decide, by decide, ?_, by decide, by decide, by decide⟩
  · intro count h
    unfold ServerSystemConfig.DiffWith
    rw [if_neg (by decide), if_neg (by simpa using h), if_neg (by decide),
      if_neg (by simpa using h.symm)]
    decide
  · intro count h
    unfold ServerSystemConfig.DiffWith
    rw [if_neg (by decide), if_neg (by simpa using h), if_neg (by decide),
      if_neg (by simpa using h.symm)]
    decide

/-- C20, the code at the failing input: both configurations have two sets
and three endpoints in all, the check on `NEndpoints` passes, and the address
at position `(0, 1)` of the local configuration has no partner in set 0 of
the peer: `Diff` panics, and so does a `Verify` that decodes this peer
configuration. -/
theorem Diff_index_out_of_range :
    NEndpoints cfgSplitTwoOne.MinioEndpoints = NEndpoints cfgSplitOneTwo.MinioEndpoints ∧
    (allEndpoints cfgSplitTwoOne.MinioEndpoints).length =
      (allEndpoints cfgSplitOneTwo.MinioEndpoints).length ∧
    cfgSplitTwoOne.Diff cfgSplitOneTwo = .error (.indexOutOfRange 1 1) ∧
    ((newBootstrapRESTClient hostB).Verify false sampleCall sampleDecode cfgSplitTwoOne).result =
      .error (.indexOutOfRange 1 1) := by
  decide

end Bootstrap
